import Mathlib

/-!
# PayMeQR: a shallow embedding of `src/paymeqr.js`

The development models the `PayMeQR` class of `src/paymeqr.js`:

* JavaScript strings are sequences of UTF-16 code units (`JSString`), so that
  `length`, `trim` and the regular expression work on code units as they do in
  JavaScript;
* `this.params` is an ordinary object: an insertion-ordered list of own
  properties (`Params`);
* the constructor and the three setters are state-passing functions that report
  both the state of the object when the call completes and the `Error` thrown;
* `#getLink` drives a model of `URLSearchParams` (`append`, `toString`);
* the browser side (`#loadQrCodeLibrary`, `#createBrowserQrCode`) is a step
  function over an explicit document/global state.
-/

namespace Paymeqr

/-! ## JavaScript strings -/

/-- A JavaScript string: the list of its UTF-16 code units. -/
abbrev JSString := List Nat

/-- UTF-16 code units of one Unicode scalar value. -/
def utf16Char (c : Nat) : List Nat :=
  if c < 0x10000 then [c]
  else [0xD800 + (c - 0x10000) / 0x400, 0xDC00 + (c - 0x10000) % 0x400]

/-- The JavaScript string written by a source-text literal. -/
def utf16 (s : String) : JSString :=
  s.toList.flatMap (fun c => utf16Char c.toNat)

/-- ECMAScript `WhiteSpace` and `LineTerminator` code points, the set stripped
by `String.prototype.trim` and skipped by `parseFloat`. -/
def isWhiteSpace (c : Nat) : Bool :=
  c == 0x09 || c == 0x0A || c == 0x0B || c == 0x0C || c == 0x0D || c == 0x20 ||
  c == 0xA0 || c == 0x1680 || (0x2000 ≤ c && c ≤ 0x200A) ||
  c == 0x2028 || c == 0x2029 || c == 0x202F || c == 0x205F || c == 0x3000 ||
  c == 0xFEFF

/-- Method `String.prototype.trim`: strips leading and trailing white space. -/
def trim (s : JSString) : JSString :=
  ((s.dropWhile isWhiteSpace).reverse.dropWhile isWhiteSpace).reverse

/-- Character class `[a-zA-Z]`. -/
def isAlpha (c : Nat) : Bool :=
  (0x61 ≤ c && c ≤ 0x7A) || (0x41 ≤ c && c ≤ 0x5A)

/-- Character class `[0-9]`. -/
def isDigit (c : Nat) : Bool :=
  0x30 ≤ c && c ≤ 0x39

/-- Character class `[a-zA-Z0-9.\-_]`. -/
def isLocalChar (c : Nat) : Bool :=
  isAlpha c || isDigit c || c == 0x2E || c == 0x2D || c == 0x5F

/-- The test `upiIdRegex.test(s)` for `/^[a-zA-Z0-9.\-_]{2,256}@[a-zA-Z]{2,64}$/`.

The first class does not contain `@`, so the only way to match is: the maximal
run of class characters at the start has 2 to 256 elements, it is followed by
`@`, and what follows is 2 to 64 letters up to the end of the input (`$` without
the `m` flag matches at the end of the input only). -/
def upiIdRegexTest (s : JSString) : Bool :=
  let loc := s.takeWhile isLocalChar
  match s.dropWhile isLocalChar with
  | 0x40 :: handle =>
      decide (2 ≤ loc.length) && decide (loc.length ≤ 256) &&
      handle.all isAlpha &&
      decide (2 ≤ handle.length) && decide (handle.length ≤ 64)
  | _ => false

/-! ## JavaScript numbers

A Number is `NaN`, an infinity, or a finite binary64 value `± m * 2 ^ e`.
Conversions from decimal text round to the nearest binary64 value, ties to
even, exactly as `parseFloat` does. -/

/-- A JavaScript Number. `fin neg m e` is the finite value `(-1)^neg * m * 2^e`
(a binary64 value has `m < 2^53` and `-1074 ≤ e ≤ 971`). -/
inductive JSNum where
  | nan
  | inf (neg : Bool)
  | fin (neg : Bool) (m : Nat) (e : Int)
  deriving DecidableEq, Repr

/-- Number of binary digits of `n`, with explicit fuel. -/
def bitLenAux : Nat → Nat → Nat
  | 0, _ => 0
  | fuel + 1, n => if n = 0 then 0 else bitLenAux fuel (n / 2) + 1

/-- Number of binary digits of `n` (`0` for `0`). -/
def bitLen (n : Nat) : Nat := bitLenAux n n

/-- Numerator and denominator of the magnitude `m * 2 ^ e`. -/
def dyadicFrac (m : Nat) (e : Int) : Nat × Nat :=
  if 0 ≤ e then (m * 2 ^ e.toNat, 1) else (m, 2 ^ (-e).toNat)

/-- Round the non-negative rational `num / den` (`den > 0`) to the nearest
binary64 magnitude, ties to even; `none` is overflow to infinity. -/
def roundToDouble (num den : Nat) : Option (Nat × Int) :=
  if num = 0 then some (0, 0)
  else
    -- `t` with `2 ^ t ≤ num / den < 2 ^ (t + 1)`
    let t0 : Int := (bitLen num : Int) - (bitLen den : Int)
    let below : Bool :=
      if 0 ≤ t0 then decide (num < den * 2 ^ t0.toNat)
      else decide (num * 2 ^ (-t0).toNat < den)
    let t : Int := if below then t0 - 1 else t0
    -- exponent of the unit in the last place (subnormals stop at -1074)
    let e : Int := max (t - 52) (-1074)
    let a : Nat := if 0 ≤ e then num else num * 2 ^ (-e).toNat
    let b : Nat := if 0 ≤ e then den * 2 ^ e.toNat else den
    let q := a / b
    let r := a % b
    let m := if 2 * r < b then q
             else if b < 2 * r then q + 1
             else if q % 2 = 0 then q else q + 1
    -- `m = 2 ^ 53` is the next binade; beyond the largest exponent it overflows
    if 2 ^ 53 ≤ m ∧ 971 ≤ e then none
    else if 971 < e then none
    else some (m, e)

/-- The Number for the decimal magnitude `n * 10 ^ k` with sign `neg`. -/
def decimalToNum (neg : Bool) (n : Nat) (k : Int) : JSNum :=
  let frac : Nat × Nat :=
    if 0 ≤ k then (n * 10 ^ k.toNat, 1) else (n, 10 ^ (-k).toNat)
  match roundToDouble frac.1 frac.2 with
  | some (m, e) => .fin neg m e
  | none => .inf neg

/-- Value of a run of decimal digit code units. -/
def digitsToNat (ds : List Nat) : Nat :=
  ds.foldl (fun acc d => 10 * acc + (d - 0x30)) 0

/-- Decimal digit code units of `n`, most significant first, with fuel. -/
def decimalDigitsAux : Nat → Nat → List Nat → List Nat
  | 0, _, acc => acc
  | fuel + 1, n, acc =>
      if n < 10 then (0x30 + n) :: acc
      else decimalDigitsAux fuel (n / 10) ((0x30 + n % 10) :: acc)

/-- Decimal representation of a natural number (`"0"` for `0`). -/
def decimalDigits (n : Nat) : JSString := decimalDigitsAux (n + 1) n []

/-- Whether `num / den` rounds to the binary64 magnitude `m * 2 ^ e`. -/
def roundsTo (num den m : Nat) (e : Int) : Bool :=
  match roundToDouble num den with
  | some (m1, e1) =>
      let x := dyadicFrac m e
      let y := dyadicFrac m1 e1
      decide (y.1 * x.2 = x.1 * y.2)
  | none => false

/-- Strip trailing `0` digits. -/
def stripTrailingZeros (ds : JSString) : JSString :=
  (ds.reverse.dropWhile (fun d => d == 0x30)).reverse

/-- Search of `Number::toString` for the shortest digit string: for `k = 1, 2, …`
significant digits, the two `k`-digit decimals around `x` are tried and the
first one whose Number value is `x` is taken (the nearer one when both are).
`x = m * 2 ^ e = num / den` has `n` integer digits; the result is the scaled
integer `s` together with its power of ten `p`. -/
def shortestDigits (m : Nat) (e : Int) (num den n : Nat) : Nat → Nat → Nat × Nat
  | 0, _ => (num / den, 0)
  | fuel + 1, k =>
      let p := n - k
      let lo := num / (den * 10 ^ p)
      let hi := lo + 1
      let okLo := roundsTo (lo * 10 ^ p) 1 m e
      let okHi := roundsTo (hi * 10 ^ p) 1 m e
      if okLo && okHi then
        -- distance of x to lo and to hi, both scaled by den
        let dLo := num - lo * 10 ^ p * den
        let dHi := hi * 10 ^ p * den - num
        if dLo < dHi then (lo, p)
        else if dHi < dLo then (hi, p)
        else if lo % 2 = 0 then (lo, p) else (hi, p)
      else if okLo then (lo, p)
      else if okHi then (hi, p)
      else if n ≤ k then (num / den, 0)
      else shortestDigits m e num den n fuel (k + 1)

/-- The text `Number::toString(x)` for a finite `x = m * 2 ^ e` with `x ≥ 10 ^ 21`: the
exponential form `d.ddd…e+N` (`de+N` for one significant digit). -/
def numberToStringLarge (m : Nat) (e : Int) : JSString :=
  let x := dyadicFrac m e
  let n := (decimalDigits (x.1 / x.2)).length
  let sp := shortestDigits m e x.1 x.2 n n 1
  let all := decimalDigits sp.1
  let ds := stripTrailingZeros all
  let ex := decimalDigits (all.length + sp.2 - 1)
  match ds with
  | [] => utf16 "0"
  | [d] => d :: (utf16 "e+" ++ ex)
  | d :: rest => d :: 0x2E :: (rest ++ utf16 "e+" ++ ex)

/-- Method `Number.prototype.toFixed`, called as `x.toFixed(2)`.

For a finite `|x| < 10 ^ 21` the integer `n` with `n / 100` nearest to `|x|`
is taken (the larger one on a tie), written with at least three digits, and a
decimal point is put before the last two. Non-finite values and `|x| ≥ 10 ^ 21`
are returned as `Number::toString` writes them. -/
def toFixed2 : JSNum → JSString
  | .nan => utf16 "NaN"
  | .inf neg => (if neg then utf16 "-" else []) ++ utf16 "Infinity"
  | .fin neg m e =>
      let x := dyadicFrac m e
      let sign : JSString := if neg && decide (m ≠ 0) then utf16 "-" else []
      if 10 ^ 21 * x.2 ≤ x.1 then sign ++ numberToStringLarge m e
      else
        let n := (200 * x.1 + x.2) / (2 * x.2)
        let ds := decimalDigits n
        let padded := List.replicate (3 - ds.length) 0x30 ++ ds
        sign ++ padded.take (padded.length - 2) ++ 0x2E :: padded.drop (padded.length - 2)

/-- The `ExponentPart` at the start of `s`, if there is one: `e` or `E`, an
optional sign and at least one digit. -/
def parseExponent (s : JSString) : Int :=
  match s with
  | c :: r =>
      if c == 0x65 || c == 0x45 then
        match r with
        | 0x2B :: d =>
            if (d.takeWhile isDigit).isEmpty then 0 else (digitsToNat (d.takeWhile isDigit) : Int)
        | 0x2D :: d =>
            if (d.takeWhile isDigit).isEmpty then 0 else -(digitsToNat (d.takeWhile isDigit) : Int)
        | _ =>
            if (r.takeWhile isDigit).isEmpty then 0 else (digitsToNat (r.takeWhile isDigit) : Int)
      else 0
  | [] => 0

/-- Function `parseFloat` on a string: leading white space is skipped, the longest
prefix that is a `StrDecimalLiteral` is read, and `NaN` is returned when there
is none. -/
def parseFloatStr (s : JSString) : JSNum :=
  let t := s.dropWhile isWhiteSpace
  let neg : Bool := t.head? == some 0x2D
  let u : JSString := if t.head? == some 0x2D || t.head? == some 0x2B then t.tail else t
  if (utf16 "Infinity").isPrefixOf u then .inf neg
  else
    let ip := u.takeWhile isDigit
    let r1 := u.dropWhile isDigit
    let fp : JSString := if r1.head? == some 0x2E then r1.tail.takeWhile isDigit else []
    let r2 : JSString := if r1.head? == some 0x2E then r1.tail.dropWhile isDigit else r1
    if ip.isEmpty && fp.isEmpty then .nan
    else decimalToNum neg (digitsToNat (ip ++ fp)) (parseExponent r2 - fp.length)

/-! ## JavaScript values passed to the class -/

/-- The values a caller can pass. An object or a symbol is represented by the
outcome of `ToString` on it, `none` when the conversion throws a `TypeError`;
such a value stands for an object whose conversion does not touch the
instance (see `ActiveObject` for one whose conversion does). -/
inductive JSValue where
  | undefined
  | null
  | bool (b : Bool)
  | num (x : JSNum)
  | str (s : JSString)
  | obj (toStr : Option JSString)

/-- Conversion `ToBoolean(v)`, the test behind `!v`. -/
def JSValue.truthy : JSValue → Bool
  | .undefined => false
  | .null => false
  | .bool b => b
  | .num .nan => false
  | .num (.inf _) => true
  | .num (.fin _ m _) => m != 0
  | .str s => !s.isEmpty
  | .obj _ => true

/-- The test `typeof v === "string"`. -/
def JSValue.isString : JSValue → Bool
  | .str _ => true
  | _ => false

/-- The string of a value known to be a string (`v.trim()`, `v.length` are
only evaluated behind a `typeof v === "string"` test). -/
def JSValue.asString : JSValue → JSString
  | .str s => s
  | _ => []

/-- Function `parseFloat(v)`: `ToString(v)` followed by `parseFloatStr`; the error is the
message of the `TypeError` of a failing `ToString`. For a Number, `ToString`
writes the shortest text that reads back as the same Number, so the result is
the argument itself (with `-0` read back as `0`). An `obj` stands for an object
by the outcome of its conversion; the conversion of an object that runs code on
the instance is an `ActiveObject`, see `PayMeQR.setAmountActive`. -/
def parseFloat : JSValue → Except String JSNum
  | .undefined => .ok (parseFloatStr (utf16 "undefined"))
  | .null => .ok (parseFloatStr (utf16 "null"))
  | .bool true => .ok (parseFloatStr (utf16 "true"))
  | .bool false => .ok (parseFloatStr (utf16 "false"))
  | .num (.fin neg m e) => .ok (.fin (neg && decide (m ≠ 0)) m e)
  | .num x => .ok x
  | .str s => .ok (parseFloatStr s)
  | .obj (some s) => .ok (parseFloatStr s)
  | .obj none => .error "Cannot convert object to primitive value"

/-- Function `isNaN(x)` on a Number. -/
def JSNum.isNaN : JSNum → Bool
  | .nan => true
  | _ => false

/-- Comparison `x <= 0` on a Number (false for `NaN`). -/
def JSNum.leZero : JSNum → Bool
  | .nan => false
  | .inf neg => neg
  | .fin neg m _ => neg || m == 0

/-! ## The parameter object and the class -/

/-- An ordinary object with string-valued own properties, in property order:
string keys are enumerated in the order in which they were created. -/
abbrev Params := List (JSString × JSString)

/-- Property read `obj[key]`: `none` is `undefined`. -/
def Params.get (p : Params) (key : JSString) : Option JSString :=
  match p with
  | [] => none
  | (k, v) :: rest => if k = key then some v else Params.get rest key

/-- Assignment `obj[key] = value`: an existing property keeps its place, a new one is
created after all the others. -/
def Params.set (p : Params) (key value : JSString) : Params :=
  match p with
  | [] => [(key, value)]
  | (k, v) :: rest =>
      if k = key then (key, value) :: rest else (k, v) :: Params.set rest key value

/-- Property names, in enumeration order. -/
def Params.keys (p : Params) : List JSString := p.map Prod.fst

/-- An instance of the class: its `params` field. -/
structure PayMeQR where
  params : Params
  deriving DecidableEq, Repr

/-- Completion of a method call: the state of the instance when the call
returns or throws, and the message of the `Error` thrown (`none` when the
method returned `this`). -/
structure Call where
  self : PayMeQR
  thrown : Option String
  deriving DecidableEq, Repr

/-- Construction `new PayMeQR({ upiId })`: the instance, or the message of the `Error`. -/
def PayMeQR.constructor (upiId : JSValue) : Except String PayMeQR :=
  if !upiId.truthy || !upiId.isString || !upiIdRegexTest (trim upiId.asString) then
    .error "Invalid or missing UPI ID"
  else
    .ok { params := [(utf16 "pa", trim upiId.asString), (utf16 "cu", utf16 "INR")] }

/-- Method `setPayeeName(name)`. -/
def PayMeQR.setPayeeName (self : PayMeQR) (name : JSValue) : Call :=
  if !name.isString || decide ((trim name.asString).length < 2) then
    { self := self, thrown := some "Invalid payee name" }
  else
    { self := { params := self.params.set (utf16 "pn") (trim name.asString) },
      thrown := none }

/-- Method `setAmount(amount)`. -/
def PayMeQR.setAmount (self : PayMeQR) (amount : JSValue) : Call :=
  match parseFloat amount with
  | .error msg => { self := self, thrown := some msg }
  | .ok num =>
      if num.isNaN || num.leZero then
        { self := self, thrown := some "Invalid amount" }
      else
        { self := { params := self.params.set (utf16 "am") (toFixed2 num) },
          thrown := none }

/-- Method `setNote(note)`. -/
def PayMeQR.setNote (self : PayMeQR) (note : JSValue) : Call :=
  if !note.isString || decide (note.asString.length > 80) then
    { self := self, thrown := some "Note must be a string up to 80 characters" }
  else
    { self := { params := self.params.set (utf16 "tn") (trim note.asString) },
      thrown := none }

/-- An object argument whose conversion to a string runs its own `toString` or
`valueOf`: code of the caller, which can hold the instance and write its public
`params` field. The conversion leaves the instance in some state and returns a
string (`none`: it throws). -/
structure ActiveObject where
  convert : PayMeQR → PayMeQR × Option JSString

/-- Method `setAmount(amount)` on such an object: `parseFloat(amount)` at the first
line of the method runs the conversion, then the method goes on, on the instance
as the conversion left it, as for the outcome of the conversion. -/
def PayMeQR.setAmountActive (self : PayMeQR) (amount : ActiveObject) : Call :=
  PayMeQR.setAmount (amount.convert self).1 (.obj (amount.convert self).2)

/-! ## `URLSearchParams` and `#getLink` -/

/-- Conversion of a JavaScript string to scalar values (`USVString`): a
surrogate pair is one scalar value, a lone surrogate becomes U+FFFD. -/
def toScalars : JSString → List Nat
  | [] => []
  | [c] => if 0xD800 ≤ c ∧ c ≤ 0xDFFF then [0xFFFD] else [c]
  | c :: d :: rest =>
      if 0xD800 ≤ c ∧ c ≤ 0xDBFF ∧ 0xDC00 ≤ d ∧ d ≤ 0xDFFF then
        (0x10000 + (c - 0xD800) * 0x400 + (d - 0xDC00)) :: toScalars rest
      else if 0xD800 ≤ c ∧ c ≤ 0xDFFF then 0xFFFD :: toScalars (d :: rest)
      else c :: toScalars (d :: rest)

/-- UTF-8 bytes of a scalar value. -/
def utf8Encode (c : Nat) : List Nat :=
  if c < 0x80 then [c]
  else if c < 0x800 then [0xC0 + c / 0x40, 0x80 + c % 0x40]
  else if c < 0x10000 then [0xE0 + c / 0x1000, 0x80 + c / 0x40 % 0x40, 0x80 + c % 0x40]
  else [0xF0 + c / 0x40000, 0x80 + c / 0x1000 % 0x40, 0x80 + c / 0x40 % 0x40, 0x80 + c % 0x40]

/-- Upper-case hexadecimal digit. -/
def hexDigit (n : Nat) : Nat :=
  if n < 10 then 0x30 + n else 0x41 + (n - 10)

/-- Bytes left as they are by the `application/x-www-form-urlencoded`
serializer: ASCII alphanumerics and `*`, `-`, `.`, `_`. -/
def isUrlencodedSafe (b : Nat) : Bool :=
  isAlpha b || isDigit b || b == 0x2A || b == 0x2D || b == 0x2E || b == 0x5F

/-- One byte in `application/x-www-form-urlencoded` form: a safe byte is kept,
a space becomes `+`, any other byte becomes `%XX`. -/
def urlencodeByte (b : Nat) : List Nat :=
  if isUrlencodedSafe b then [b]
  else if b = 0x20 then [0x2B]
  else [0x25, hexDigit (b / 16), hexDigit (b % 16)]

/-- Percent-encoding of a name or value by `URLSearchParams.prototype.toString`. -/
def formUrlEncode (s : JSString) : JSString :=
  ((toScalars s).flatMap utf8Encode).flatMap urlencodeByte

/-- The list of name/value pairs held by a `URLSearchParams` object. -/
abbrev URLSearchParams := List (JSString × JSString)

/-- Method `append(name, value)`. -/
def URLSearchParams.append (sp : URLSearchParams) (name value : JSString) :
    URLSearchParams :=
  sp ++ [(name, value)]

/-- Method `toString()`: the pairs as `name=value`, with `&` put in front of every pair
that finds the output non-empty. -/
def URLSearchParams.toString (sp : URLSearchParams) : JSString :=
  sp.foldl
    (fun output nv =>
      (if output.isEmpty then output else output ++ [0x26]) ++
        formUrlEncode nv.1 ++ [0x3D] ++ formUrlEncode nv.2)
    []

/-- Private method `#getLink()`: the `for…in` loop visits the properties of `this.params`
in property order. A property of `params` always holds a string, so the test
`value !== undefined` holds for each of them and `value !== ""` decides. -/
def PayMeQR.getLink (self : PayMeQR) : JSString :=
  let searchParams : URLSearchParams :=
    self.params.foldl
      (fun sp kv => if kv.2 ≠ [] then sp.append kv.1 kv.2 else sp)
      []
  utf16 "upi://pay?" ++ searchParams.toString

/-- A setter call. -/
inductive Op where
  | setPayeeName (name : JSValue)
  | setAmount (amount : JSValue)
  | setNote (note : JSValue)

/-- The property a setter writes. -/
def Op.key : Op → JSString
  | .setPayeeName _ => utf16 "pn"
  | .setAmount _ => utf16 "am"
  | .setNote _ => utf16 "tn"

/-- Perform one setter call. -/
def PayMeQR.call (self : PayMeQR) : Op → Call
  | .setPayeeName name => self.setPayeeName name
  | .setAmount amount => self.setAmount amount
  | .setNote note => self.setNote note

/-- The instance after a sequence of setter calls made one after the other, a
caller catching the `Error` of a rejected call and going on. -/
def PayMeQR.run (self : PayMeQR) (ops : List Op) : PayMeQR :=
  ops.foldl (fun s op => (s.call op).self) self

/-! ## Reading a link back

The definitions of this section follow the wording of the specification: the keys
of the encoded link, the value of a key, percent-decoding. -/

/-- The query of a link: what follows `upi://pay?`. -/
def linkQuery (link : JSString) : JSString :=
  link.drop (utf16 "upi://pay?").length

/-- The `key=value` pairs of a link: the query is cut at every `&`, each piece
is cut at its first `=`. -/
def linkPairs (link : JSString) : List (JSString × JSString) :=
  ((linkQuery link).splitOn 0x26).map
    (fun piece => (piece.takeWhile (fun c => c != 0x3D),
                   (piece.dropWhile (fun c => c != 0x3D)).tail))

/-- The keys of a link, in the order in which they appear. -/
def linkKeys (link : JSString) : List JSString :=
  (linkPairs link).map Prod.fst

/-- The (still encoded) value of the first pair of a link with the given key. -/
def linkValue (link : JSString) (key : JSString) : Option JSString :=
  Params.get (linkPairs link) key

/-- Value of a hexadecimal digit. -/
def hexVal (c : Nat) : Option Nat :=
  if 0x30 ≤ c ∧ c ≤ 0x39 then some (c - 0x30)
  else if 0x41 ≤ c ∧ c ≤ 0x46 then some (c - 0x41 + 10)
  else if 0x61 ≤ c ∧ c ≤ 0x66 then some (c - 0x61 + 10)
  else none

/-- Percent-decoding: every `%XX` is replaced by the byte it denotes. -/
def percentDecode : JSString → List Nat
  | [] => []
  | [c] => [c]
  | [c, d] => [c, d]
  | c :: d :: e :: rest =>
      if c = 0x25 then
        match hexVal d, hexVal e with
        | some x, some y => (16 * x + y) :: percentDecode rest
        | _, _ => c :: percentDecode (d :: e :: rest)
      else c :: percentDecode (d :: e :: rest)

/-- The sequence obtained by keeping the first occurrence of every element. -/
def firstOccurrences : List JSString → List JSString
  | [] => []
  | k :: rest => k :: (firstOccurrences rest).filter (fun j => j ≠ k)

/-- The keys written by the accepted calls of a sequence, in call order. -/
def PayMeQR.acceptedKeys (self : PayMeQR) : List Op → List JSString
  | [] => []
  | op :: rest =>
      if (self.call op).thrown = none then
        op.key :: PayMeQR.acceptedKeys (self.call op).self rest
      else PayMeQR.acceptedKeys (self.call op).self rest

/-- Decoding of `application/x-www-form-urlencoded` text to bytes: every `+` is
a space, then every `%XX` is the byte it denotes. -/
def formDecode (t : JSString) : List Nat :=
  percentDecode (t.map (fun c => if c = 0x2B then 0x20 else c))

/-- UTF-8 decoding, one byte at a time: `acc` holds the bits read so far of a
scalar value that still needs `need` continuation bytes. -/
def utf8DecodeAux : List Nat → Nat → Nat → List Nat
  | [], _, _ => []
  | b :: rest, _, 0 =>
      if b < 0x80 then b :: utf8DecodeAux rest 0 0
      else if b < 0xE0 then utf8DecodeAux rest (b - 0xC0) 1
      else if b < 0xF0 then utf8DecodeAux rest (b - 0xE0) 2
      else utf8DecodeAux rest (b - 0xF0) 3
  | b :: rest, acc, need + 1 =>
      if need = 0 then (acc * 0x40 + (b - 0x80)) :: utf8DecodeAux rest 0 0
      else utf8DecodeAux rest (acc * 0x40 + (b - 0x80)) need

/-- The scalar values written by a sequence of UTF-8 bytes. -/
def utf8Decode (bytes : List Nat) : List Nat := utf8DecodeAux bytes 0 0

/-- The JavaScript string denoted by `application/x-www-form-urlencoded` text. -/
def decodeText (t : JSString) : JSString :=
  (utf8Decode (formDecode t)).flatMap utf16Char

/-- A well-formed JavaScript string: 16-bit code units, every surrogate being
half of a pair. -/
def wellFormed : JSString → Bool
  | [] => true
  | [c] => decide (c < 0xD800) || (decide (0xE000 ≤ c) && decide (c < 0x10000))
  | c :: d :: rest =>
      if 0xD800 ≤ c ∧ c ≤ 0xDBFF then
        decide (0xDC00 ≤ d) && decide (d ≤ 0xDFFF) && wellFormed rest
      else
        (decide (c < 0xD800) || (decide (0xE000 ≤ c) && decide (c < 0x10000))) &&
          wellFormed (d :: rest)

/-! ## The runtime: environment, document, encoder

The asynchronous methods run on one thread and are suspended at an `await`
only. A world holds what they read and write: the globals that the environment
tests look at, the script elements of the document, the requests suspended at
`await this.#loadQrCodeLibrary()`, and the requests that have settled. -/

/-- The encoding library, an external collaborator: what the promises returned
by `toDataURL(link)` and `toBuffer(link)` settle to. -/
structure Encoder where
  toDataURL : JSString → Except String JSString
  toBuffer : JSString → Except String (List Nat)

/-- An `Image` element as `#createBrowserQrCode` leaves it. -/
structure Image where
  src : JSString
  alt : String
  loading : String
  deriving DecidableEq, Repr

/-- What a request settles to: the value of a fulfilled promise, or the message
of the `Error` of a rejected one. -/
inductive Settled where
  | image (img : Image)
  | dataUrl (url : JSString)
  | buffer (bytes : List Nat)
  | rejected (message : String)
  deriving DecidableEq, Repr

/-- Loading state of a script element: the `load` or `error` event of an
element fires once, when its fetch ends. -/
inductive TagState where
  | loading
  | loaded
  | failed
  deriving DecidableEq, Repr

/-- The pair of handlers a request puts on a script element: the event handler
properties `onload` / `onerror` of the request that created the element, or the
`load` / `error` listeners of a request that found the element. -/
inductive Handler where
  | property (req : Nat)
  | listener (req : Nat)
  deriving DecidableEq, Repr

/-- The request a handler settles. -/
def Handler.req : Handler → Nat
  | .property r => r
  | .listener r => r

/-- The message of the `Error` a handler rejects with on an `error` event. -/
def Handler.errorMessage : Handler → String
  | .property _ =>
      "Failed to load QRCode library from CDN. Please check your connection."
  | .listener _ => "QRCode library failed to load."

/-- A script element of the document. -/
structure ScriptTag where
  src : Option JSString
  crossOrigin : Option JSString
  state : TagState
  handlers : List Handler
  deriving DecidableEq, Repr

/-- The state the asynchronous methods run in. -/
structure World where
  -- `typeof window !== "undefined"`
  hasWindow : Bool
  -- `typeof require === "function"`
  hasRequire : Bool
  -- what `require("qrcode")` returns, or the message of what it throws
  nodeModule : Except String Encoder
  -- the global `QRCode` of a page, `none` when `typeof QRCode === "undefined"`
  QRCode : Option Encoder
  -- the script elements in `document.head`, in document order
  head : List ScriptTag
  -- the script elements of the rest of the document, in document order
  body : List ScriptTag
  -- requests suspended at `await this.#loadQrCodeLibrary()`, with their link
  waiting : List (Nat × JSString)
  -- requests that have settled
  settled : List (Nat × Settled)
  -- number of script elements appended to the document (fetches started)
  fetches : Nat
  -- number of calls of `require("qrcode")`
  requires : Nat
  -- number of calls of `toDataURL` or `toBuffer`
  encoderCalls : Nat

/-- Whether `hay` contains `needle` as a substring. -/
def containsSubstr (needle : JSString) : JSString → Bool
  | [] => needle.isEmpty
  | c :: rest => needle.isPrefixOf (c :: rest) || containsSubstr needle rest

/-- Whether an element matches the selector `script[src*="qrcode.min.js"]`. -/
def ScriptTag.matchesSelector (t : ScriptTag) : Bool :=
  match t.src with
  | some src => containsSubstr (utf16 "qrcode.min.js") src
  | none => false

/-- Add a handler to the first element of a list that matches the selector;
`none` when no element matches. -/
def attachToFirstMatch (h : Handler) : List ScriptTag → Option (List ScriptTag)
  | [] => none
  | t :: rest =>
      if t.matchesSelector then some ({ t with handlers := t.handlers ++ [h] } :: rest)
      else (attachToFirstMatch h rest).map (fun r => t :: r)

/-- The address loaded by `#loadQrCodeLibrary`. -/
def cdnUrl : JSString :=
  utf16 "https://cdnjs.cloudflare.com/ajax/libs/qrcode/1.5.1/qrcode.min.js"

/-- The executor of the promise of `#loadQrCodeLibrary()`, run for request `req`.
The result says whether the promise is already resolved. -/
def loadQrCodeLibrary (w : World) (req : Nat) : World × Bool :=
  if w.QRCode.isSome then (w, true)
  else
    -- `document.querySelector` returns the first match in document order
    match attachToFirstMatch (.listener req) w.head with
    | some head => ({ w with head := head }, false)
    | none =>
      match attachToFirstMatch (.listener req) w.body with
      | some body => ({ w with body := body }, false)
      | none =>
        ({ w with
            head := w.head ++
              [{ src := some cdnUrl, crossOrigin := some (utf16 "anonymous"),
                 state := .loading, handlers := [.property req] }],
            fetches := w.fetches + 1 }, false)

/-- Outcome of the `try` block of `#createBrowserQrCode` once the promise of
`toDataURL` has settled: the image element, or the wrapped `Error`. -/
def imageOrError : Except String JSString → Settled
  | .ok dataUrl => .image { src := dataUrl, alt := "UPI QR Code", loading := "lazy" }
  | .error msg => .rejected ("Failed to generate QR code: " ++ msg)

/-- The `try` block of `#createBrowserQrCode`: the encoder is called through the
global `QRCode`, and whatever is thrown is wrapped. -/
def encodeInBrowser (w : World) (req : Nat) (link : JSString) : World :=
  match w.QRCode with
  | none =>
      { w with settled := w.settled ++
          [(req, .rejected "Failed to generate QR code: QRCode is not defined")] }
  | some enc =>
      { w with
          encoderCalls := w.encoderCalls + 1,
          settled := w.settled ++ [(req, imageOrError (enc.toDataURL link))] }

/-- Private method `#createBrowserQrCode(link)`, up to its first suspension. -/
def createBrowserQrCode (w : World) (req : Nat) (link : JSString) : World :=
  if w.QRCode.isNone then
    match loadQrCodeLibrary w req with
    | (w1, true) => encodeInBrowser w1 req link
    | (w1, false) => { w1 with waiting := w1.waiting ++ [(req, link)] }
  else encodeInBrowser w req link

/-- Private method `#createNodeQrCode(link)`. -/
def createNodeQrCode (w : World) (req : Nat) (link : JSString) : World :=
  match w.nodeModule with
  | .error msg =>
      { w with
          requires := w.requires + 1,
          settled := w.settled ++ [(req, .rejected ("Failed to generate QR code: " ++ msg))] }
  | .ok enc =>
      match enc.toDataURL link with
      | .ok dataUrl =>
          { w with
              requires := w.requires + 1,
              encoderCalls := w.encoderCalls + 1,
              settled := w.settled ++ [(req, .dataUrl dataUrl)] }
      | .error msg =>
          { w with
              requires := w.requires + 1,
              encoderCalls := w.encoderCalls + 1,
              settled := w.settled ++
                [(req, .rejected ("Failed to generate QR code: " ++ msg))] }

/-- The environment `createQrCode` detects. -/
inductive Environment where
  | BROWSER
  | SERVER
  | UNSUPPORTED
  deriving DecidableEq, Repr

/-- The branches of `createQrCode`: a `window` first, then a `require`. -/
def detectEnvironment (w : World) : Environment :=
  if w.hasWindow then .BROWSER
  else if w.hasRequire then .SERVER
  else .UNSUPPORTED

/-- Method `createQrCode()`, started as request `req`. -/
def PayMeQR.createQrCode (self : PayMeQR) (w : World) (req : Nat) : World :=
  let link := self.getLink
  if w.hasWindow then createBrowserQrCode w req link
  else if w.hasRequire then createNodeQrCode w req link
  else
    { w with settled := w.settled ++
        [(req, .rejected "Unsupported environment for QR generation")] }

/-- Method `getQrCodeBuffer()`, started as request `req`. -/
def PayMeQR.getQrCodeBuffer (self : PayMeQR) (w : World) (req : Nat) : World :=
  let link := self.getLink
  if !w.hasRequire then
    { w with settled := w.settled ++
        [(req, .rejected "getQrCodeBuffer() is only available in Node.js")] }
  else
    match w.nodeModule with
    | .error msg =>
        { w with
            requires := w.requires + 1,
            settled := w.settled ++
              [(req, .rejected ("Failed to generate QR code buffer: " ++ msg))] }
    | .ok enc =>
        match enc.toBuffer link with
        | .ok bytes =>
            { w with
                requires := w.requires + 1,
                encoderCalls := w.encoderCalls + 1,
                settled := w.settled ++ [(req, .buffer bytes)] }
        | .error msg =>
            { w with
                requires := w.requires + 1,
                encoderCalls := w.encoderCalls + 1,
                settled := w.settled ++
                  [(req, .rejected ("Failed to generate QR code buffer: " ++ msg))] }

/-- Resume a request whose load promise was resolved: it leaves `waiting` and runs
the `try` block. -/
def resumeResolved (w : World) (req : Nat) : World :=
  match w.waiting.find? (fun p => p.1 == req) with
  | some (_, link) =>
      encodeInBrowser { w with waiting := w.waiting.filter (fun p => p.1 != req) } req link
  | none => w

/-- Resume a request whose load promise was rejected: the `await` is outside the
`try` block, so the request is rejected with the same `Error`. -/
def resumeRejected (w : World) (req : Nat) (message : String) : World :=
  match w.waiting.find? (fun p => p.1 == req) with
  | some _ =>
      { w with
          waiting := w.waiting.filter (fun p => p.1 != req),
          settled := w.settled ++ [(req, .rejected message)] }
  | none => w

/-- The `load` event of the `i`-th script element of `document.head`: the script
has run and has defined the global `QRCode` as `defines` (`none`: it defined
nothing), then the handlers run in the order in which they were added. Nothing
happens on an element whose fetch has already ended. -/
def fireLoad (w : World) (i : Nat) (defines : Option Encoder) : World :=
  match w.head.get? i with
  | some t =>
      if t.state = .loading then
        let w1 : World :=
          { w with
              QRCode := (match defines with
                         | some enc => some enc
                         | none => w.QRCode),
              head := w.head.set i { t with state := .loaded } }
        t.handlers.foldl (fun acc h => resumeResolved acc h.req) w1
      else w
  | none => w

/-- The `error` event of the `i`-th script element of `document.head`: the
handlers run in the order in which they were added. Nothing happens on an
element whose fetch has already ended. -/
def fireError (w : World) (i : Nat) : World :=
  match w.head.get? i with
  | some t =>
      if t.state = .loading then
        let w1 : World := { w with head := w.head.set i { t with state := .failed } }
        t.handlers.foldl (fun acc h => resumeRejected acc h.req h.errorMessage) w1
      else w
  | none => w

/-! ## Definitions used to state the properties -/

/-- Text of one pair in a query: `name=value`, both percent-encoded. -/
def pairText (nv : JSString × JSString) : JSString :=
  formUrlEncode nv.1 ++ [0x3D] ++ formUrlEncode nv.2

/-- The five property names the class ever writes. -/
def paramNames : List JSString :=
  [utf16 "pa", utf16 "cu", utf16 "pn", utf16 "am", utf16 "tn"]

/-- What holds of every instance reached from a constructed one whose `pa` is `t`. -/
structure Reached (t : JSString) (s : PayMeQR) : Prop where
  head : ∃ rest, s.params = (utf16 "pa", t) :: rest
  cu : s.params.get (utf16 "cu") = some (utf16 "INR")
  nodup : s.params.keys.Nodup
  names : ∀ k ∈ s.params.keys, k ∈ paramNames

/-- A note of 80 code units, 78 of them surrounding spaces. -/
def paddedNote : JSString :=
  List.replicate 39 0x20 ++ utf16 "hi" ++ List.replicate 39 0x20

/-- The element a first request appends and a second request finds. -/
def loaderTag (st : TagState) (hs : List Handler) : ScriptTag :=
  { src := some cdnUrl, crossOrigin := some (utf16 "anonymous"), state := st, handlers := hs }

/-- An encoder that succeeds on every link. -/
def sampleEncoder : Encoder :=
  { toDataURL := fun link => .ok (utf16 "data:image/png;base64," ++ link),
    toBuffer := fun _ => .ok [0x89, 0x50, 0x4E, 0x47] }

/-- A page that has loaded nothing yet: a `window`, no `require`, no global
`QRCode`, no script element. -/
def emptyPage : World :=
  { hasWindow := true, hasRequire := false,
    nodeModule := .error "Cannot find module qrcode",
    QRCode := none, head := [], body := [], waiting := [], settled := [],
    fetches := 0, requires := 0, encoderCalls := 0 }

/-- A runtime with both a `window` and a `require` that finds the encoder. -/
def windowWithRequire : World :=
  { hasWindow := true, hasRequire := true, nodeModule := .ok sampleEncoder,
    QRCode := none, head := [], body := [], waiting := [], settled := [],
    fetches := 0, requires := 0, encoderCalls := 0 }

/-- The instance built from `ab@upi`. -/
def sampleStore : PayMeQR :=
  { params := [(utf16 "pa", utf16 "ab@upi"), (utf16 "cu", utf16 "INR")] }

/-- The object `{ toString() { store.params.pa = "zz@upi"; return "abc"; } }`. -/
def writingObject : ActiveObject :=
  { convert := fun s =>
      ({ params := s.params.set (utf16 "pa") (utf16 "zz@upi") }, some (utf16 "abc")) }

/-! # Properties -/

/-! ## The link as a function of the parameters -/

theorem intercalate_cons_flatMap (sep x : List Nat) (l : List (List Nat)) :
    sep.intercalate (x :: l) = x ++ l.flatMap (fun y => sep ++ y) := by
  induction l generalizing x with
  | nil => simp [List.intercalate]
  | cons y l ih =>
    have h := ih y
    simp only [List.intercalate, List.intersperse, List.flatMap_cons] at h ⊢
    simp [List.flatten, h]

theorem toString_foldl_step (acc : JSString) (hacc : acc ≠ []) (l : URLSearchParams) :
    l.foldl
      (fun output nv =>
        (if output.isEmpty then output else output ++ [0x26]) ++
          formUrlEncode nv.1 ++ [0x3D] ++ formUrlEncode nv.2)
      acc
    = acc ++ l.flatMap (fun nv => [0x26] ++ pairText nv) := by
  induction l generalizing acc with
  | nil => simp
  | cons nv l ih =>
    have hne : acc.isEmpty = false := by
      cases acc with
      | nil => exact absurd rfl hacc
      | cons a t => rfl
    simp only [List.foldl_cons, hne, Bool.false_eq_true, if_false]
    rw [ih _ (by simp)]
    simp [pairText, List.append_assoc]

theorem toString_eq (sp : URLSearchParams) :
    sp.toString = [0x26].intercalate (sp.map pairText) := by
  cases sp with
  | nil => simp [URLSearchParams.toString, List.intercalate]
  | cons nv l =>
    rw [List.map_cons, intercalate_cons_flatMap]
    simp only [URLSearchParams.toString, List.foldl_cons, List.isEmpty_nil, if_true]
    rw [toString_foldl_step _ (by simp)]
    simp [pairText, List.flatMap_map, List.append_assoc]

theorem getLink_foldl (acc : URLSearchParams) (p : Params) :
    p.foldl (fun sp kv => if kv.2 ≠ [] then sp.append kv.1 kv.2 else sp) acc
    = acc ++ p.filter (fun kv => decide (kv.2 ≠ [])) := by
  induction p generalizing acc with
  | nil => simp
  | cons kv p ih =>
    simp only [List.foldl_cons]
    by_cases h : kv.2 = []
    · rw [if_neg (by simpa using h), ih]
      simp [h]
    · rw [if_pos h, ih]
      simp [h, URLSearchParams.append]

/-- The link is `upi://pay?` followed by the `name=value` texts of the properties
with a non-empty value, in property order, joined by `&`. -/
theorem getLink_eq (self : PayMeQR) :
    self.getLink =
      utf16 "upi://pay?" ++
        [0x26].intercalate
          ((self.params.filter (fun kv => decide (kv.2 ≠ []))).map pairText) := by
  simp only [PayMeQR.getLink]
  rw [getLink_foldl, toString_eq]
  simp

/-! ## Percent-encoded text and its separators -/

theorem hexDigit_ne_sep (n : Nat) : hexDigit n ≠ 0x26 ∧ hexDigit n ≠ 0x3D := by
  unfold hexDigit
  split <;> constructor <;> omega

theorem urlencodeByte_no_sep (b c : Nat) (h : c ∈ urlencodeByte b) :
    c ≠ 0x26 ∧ c ≠ 0x3D := by
  unfold urlencodeByte at h
  split at h
  · rename_i hs
    simp only [List.mem_singleton] at h
    subst h
    simp only [isUrlencodedSafe, isAlpha, isDigit, Bool.or_eq_true, Bool.and_eq_true,
      decide_eq_true_eq, beq_iff_eq] at hs
    constructor <;> omega
  · split at h
    · simp only [List.mem_singleton] at h
      subst h
      constructor <;> omega
    · simp only [List.mem_cons, List.mem_singleton, List.not_mem_nil, or_false] at h
      rcases h with h | h | h
      · subst h; constructor <;> omega
      · subst h; exact hexDigit_ne_sep _
      · subst h; exact hexDigit_ne_sep _

theorem formUrlEncode_no_sep (s : JSString) (c : Nat) (h : c ∈ formUrlEncode s) :
    c ≠ 0x26 ∧ c ≠ 0x3D := by
  unfold formUrlEncode at h
  rw [List.mem_flatMap] at h
  obtain ⟨b, _, hb⟩ := h
  exact urlencodeByte_no_sep b c hb

theorem pairText_no_amp (nv : JSString × JSString) : (0x26 : Nat) ∉ pairText nv := by
  intro h
  simp only [pairText, List.mem_append, List.mem_singleton] at h
  rcases h with (h | h) | h
  · exact (formUrlEncode_no_sep _ _ h).1 rfl
  · omega
  · exact (formUrlEncode_no_sep _ _ h).1 rfl

theorem takeWhile_append_stop (p : Nat → Bool) (a b : List Nat) (x : Nat)
    (ha : ∀ c ∈ a, p c = true) (hx : p x = false) :
    (a ++ x :: b).takeWhile p = a ∧ (a ++ x :: b).dropWhile p = x :: b := by
  induction a with
  | nil => simp [List.takeWhile, List.dropWhile, hx]
  | cons c a ih =>
    have hc : p c = true := ha c (List.mem_cons_self _ _)
    have ih2 := ih (fun d hd => ha d (List.mem_cons_of_mem _ hd))
    simp [List.takeWhile, List.dropWhile, hc, ih2.1, ih2.2]

/-- Cutting the text of a pair at its first `=` gives back the encoded name and
the encoded value. -/
theorem cut_pairText (nv : JSString × JSString) :
    ((pairText nv).takeWhile (fun c => c != 0x3D),
      ((pairText nv).dropWhile (fun c => c != 0x3D)).tail)
    = (formUrlEncode nv.1, formUrlEncode nv.2) := by
  have h := takeWhile_append_stop (fun c => c != 0x3D) (formUrlEncode nv.1)
    (formUrlEncode nv.2) 0x3D
    (fun c hc => by simpa using (formUrlEncode_no_sep _ _ hc).2) (by simp)
  have e : pairText nv = formUrlEncode nv.1 ++ 0x3D :: formUrlEncode nv.2 := by
    simp [pairText]
  rw [e, h.1, h.2]
  rfl

/-- The pairs read back from the link of an instance are the percent-encoded
properties with a non-empty value, in property order. -/
theorem linkPairs_getLink (self : PayMeQR)
    (h : self.params.filter (fun kv => decide (kv.2 ≠ [])) ≠ []) :
    linkPairs self.getLink =
      (self.params.filter (fun kv => decide (kv.2 ≠ []))).map
        (fun kv => (formUrlEncode kv.1, formUrlEncode kv.2)) := by
  unfold linkPairs linkQuery
  rw [getLink_eq, List.drop_left, List.splitOn_intercalate]
  · rw [List.map_map]
    apply List.map_congr_left
    intro nv _
    exact cut_pairText nv
  · intro l hl
    rw [List.mem_map] at hl
    obtain ⟨nv, _, rfl⟩ := hl
    exact pairText_no_amp nv
  · simpa using h

/-! ## Encoding and decoding ASCII text -/

theorem toScalars_of_lt (s : JSString) (h : ∀ c ∈ s, c < 0x80) : toScalars s = s := by
  induction s using toScalars.induct with
  | case1 => rfl
  | case2 c hc =>
    have := h c (List.mem_cons_self _ _)
    omega
  | case3 c hc => simp [toScalars, hc]
  | case4 c d rest hc ih =>
    have := h c (List.mem_cons_self _ _)
    omega
  | case5 c d rest h1 h2 ih =>
    have := h c (List.mem_cons_self _ _)
    omega
  | case6 c d rest h1 h2 ih =>
    have ih2 := ih (fun x hx => h x (List.mem_cons_of_mem _ hx))
    simp only [toScalars, h1, h2, if_false, ih2]

theorem flatMap_utf8Encode_of_lt (s : List Nat) (h : ∀ c ∈ s, c < 0x80) :
    s.flatMap utf8Encode = s := by
  induction s with
  | nil => rfl
  | cons c s ih =>
    have hc := h c (List.mem_cons_self _ _)
    simp [List.flatMap_cons, utf8Encode, hc, ih (fun x hx => h x (List.mem_cons_of_mem _ hx))]

theorem formUrlEncode_ascii (s : JSString) (h : ∀ c ∈ s, c < 0x80) :
    formUrlEncode s = s.flatMap urlencodeByte := by
  unfold formUrlEncode
  rw [toScalars_of_lt s h, flatMap_utf8Encode_of_lt s h]

theorem isUrlencodedSafe_lt (c : Nat) (h : isUrlencodedSafe c = true) : c < 0x80 := by
  simp only [isUrlencodedSafe, isAlpha, isDigit, Bool.or_eq_true, Bool.and_eq_true,
    decide_eq_true_eq, beq_iff_eq] at h
  omega

/-- Text made of safe characters is left as it is by the encoder. -/
theorem formUrlEncode_safe (s : JSString) (h : ∀ c ∈ s, isUrlencodedSafe c = true) :
    formUrlEncode s = s := by
  rw [formUrlEncode_ascii s (fun c hc => isUrlencodedSafe_lt c (h c hc))]
  induction s with
  | nil => rfl
  | cons c s ih =>
    simp [List.flatMap_cons, urlencodeByte, h c (List.mem_cons_self _ _),
      ih (fun x hx => h x (List.mem_cons_of_mem _ hx))]

theorem percentDecode_cons_of_ne (c : Nat) (l : JSString) (h : c ≠ 0x25) :
    percentDecode (c :: l) = c :: percentDecode l := by
  match l with
  | [] => rfl
  | [d] => rfl
  | d :: e :: rest => simp [percentDecode, h]

theorem hexVal_hexDigit (n : Nat) (h : n < 16) : hexVal (hexDigit n) = some n := by
  unfold hexDigit hexVal
  by_cases h10 : n < 10
  · simp only [h10, if_true]
    rw [if_pos (by omega)]
    congr 1
    omega
  · simp only [h10, if_false]
    rw [if_neg (by omega), if_pos (by omega)]
    congr 1
    omega

theorem percentDecode_escape (b : Nat) (l : JSString) (h : b < 0x100) :
    percentDecode (0x25 :: hexDigit (b / 16) :: hexDigit (b % 16) :: l)
      = b :: percentDecode l := by
  simp only [percentDecode, if_true]
  rw [hexVal_hexDigit _ (by omega), hexVal_hexDigit _ (by omega)]
  simp only
  congr 1
  omega

/-- Percent-decoding undoes the encoder on ASCII text without a space. -/
theorem percentDecode_formUrlEncode (s : JSString)
    (h : ∀ c ∈ s, c < 0x80 ∧ c ≠ 0x20) :
    percentDecode (formUrlEncode s) = s := by
  rw [formUrlEncode_ascii s (fun c hc => (h c hc).1)]
  induction s with
  | nil => rfl
  | cons c s ih =>
    have hc := h c (List.mem_cons_self _ _)
    have ih2 := ih (fun x hx => h x (List.mem_cons_of_mem _ hx))
    rw [List.flatMap_cons]
    by_cases hs : isUrlencodedSafe c = true
    · have hne : c ≠ 0x25 := by
        simp only [isUrlencodedSafe, isAlpha, isDigit, Bool.or_eq_true, Bool.and_eq_true,
          decide_eq_true_eq, beq_iff_eq] at hs
        omega
      have hb : urlencodeByte c = [c] := by simp [urlencodeByte, hs]
      rw [hb, List.singleton_append, percentDecode_cons_of_ne c _ hne, ih2]
    · have hb : urlencodeByte c = [0x25, hexDigit (c / 16), hexDigit (c % 16)] := by
        simp [urlencodeByte, hs, hc.2]
      rw [hb]
      simp only [List.cons_append, List.nil_append]
      rw [percentDecode_escape c _ (by omega), ih2]

/-! ## The parameter object under the setters -/

theorem Params.keys_set (p : Params) (k v : JSString) :
    (p.set k v).keys = if k ∈ p.keys then p.keys else p.keys ++ [k] := by
  induction p with
  | nil => simp [Params.set, Params.keys]
  | cons kv p ih =>
    obtain ⟨k1, v1⟩ := kv
    simp only [Params.keys] at ih
    by_cases h : k1 = k
    · subst h
      simp [Params.set, Params.keys]
    · have h2 : ¬ k = k1 := fun e => h e.symm
      simp only [Params.set, Params.keys, h, if_false, List.map_cons, List.mem_cons, h2,
        false_or, ih]
      split <;> simp

theorem Params.get_set_self (p : Params) (k v : JSString) :
    (p.set k v).get k = some v := by
  induction p with
  | nil => simp [Params.set, Params.get]
  | cons kv p ih =>
    obtain ⟨k1, v1⟩ := kv
    by_cases h : k1 = k
    · simp [Params.set, Params.get, h]
    · simp [Params.set, Params.get, h, ih]

theorem Params.get_set_ne (p : Params) (k v j : JSString) (h : j ≠ k) :
    (p.set k v).get j = p.get j := by
  induction p with
  | nil => simp [Params.set, Params.get, h.symm]
  | cons kv p ih =>
    obtain ⟨k1, v1⟩ := kv
    by_cases h1 : k1 = k
    · subst h1
      have h2 : ¬ k1 = j := fun e => h e.symm
      simp [Params.set, Params.get, h2]
    · by_cases h2 : k1 = j
      · subst h2
        simp [Params.set, Params.get, h1]
      · simp [Params.set, Params.get, h1, h2, ih]

theorem Params.filter_set_ne (p : Params) (k v : JSString) :
    (p.set k v).filter (fun kv => decide (kv.1 ≠ k))
      = p.filter (fun kv => decide (kv.1 ≠ k)) := by
  induction p with
  | nil => simp [Params.set]
  | cons kv p ih =>
    obtain ⟨k1, v1⟩ := kv
    by_cases h : k1 = k
    · simp [Params.set, h]
    · simp only [Params.set, h, if_false, List.filter_cons, ih]

theorem Params.get_eq_none (p : Params) (k : JSString) (h : k ∉ p.keys) :
    p.get k = none := by
  induction p with
  | nil => rfl
  | cons kv p ih =>
    obtain ⟨k1, v1⟩ := kv
    simp only [Params.keys, List.map_cons, List.mem_cons, not_or] at h
    have h1 : ¬ k1 = k := fun e => h.1 e.symm
    simp only [Params.get, h1, if_false]
    exact ih h.2

/-- With no repeated key, the keys of the properties with a non-empty value are
the keys whose value is not the empty string. -/
theorem Params.keys_filter_nonempty (p : Params) (h : p.keys.Nodup) :
    (p.filter (fun kv => decide (kv.2 ≠ []))).map Prod.fst
      = p.keys.filter (fun k => decide (p.get k ≠ some [])) := by
  induction p with
  | nil => rfl
  | cons kv p ih =>
    obtain ⟨k1, v1⟩ := kv
    simp only [Params.keys, List.map_cons, List.nodup_cons] at h
    have ih2 := ih h.2
    have hrest : ((Params.keys p).filter
          (fun k => decide (Params.get ((k1, v1) :: p) k ≠ some [])))
        = (Params.keys p).filter (fun k => decide (Params.get p k ≠ some [])) := by
      apply List.filter_congr
      intro k hk
      have hne : ¬ k1 = k := fun e => h.1 (e ▸ hk)
      simp [Params.get, hne]
    simp only [Params.keys, List.map_cons, List.filter_cons]
    have hget : Params.get ((k1, v1) :: p) k1 = some v1 := by simp [Params.get]
    rw [hget]
    simp only [Params.keys] at hrest ih2
    rw [hrest]
    by_cases hv : v1 = []
    · simpa [hv] using ih2
    · simpa [hv] using ih2

/-- A setter call either throws and leaves the instance as it was, or returns
and assigns one value to its own property. -/
theorem PayMeQR.call_cases (s : PayMeQR) (op : Op) :
    ((s.call op).thrown ≠ none ∧ (s.call op).self = s) ∨
    ((s.call op).thrown = none ∧
      ∃ v, (s.call op).self = { params := s.params.set op.key v }) := by
  cases op with
  | setPayeeName name =>
    simp only [PayMeQR.call, PayMeQR.setPayeeName, Op.key]
    split
    · left; simp
    · right; exact ⟨rfl, _, rfl⟩
  | setAmount amount =>
    simp only [PayMeQR.call, PayMeQR.setAmount, Op.key]
    split
    · left; simp
    · split
      · left; simp
      · right; exact ⟨rfl, _, rfl⟩
  | setNote note =>
    simp only [PayMeQR.call, PayMeQR.setNote, Op.key]
    split
    · left; simp
    · right; exact ⟨rfl, _, rfl⟩

theorem Op.key_mem (op : Op) :
    op.key ∈ [utf16 "pn", utf16 "am", utf16 "tn"] := by
  cases op <;> simp [Op.key]

theorem Op.key_ne_pa (op : Op) : op.key ≠ utf16 "pa" := by
  cases op <;> simp only [Op.key] <;> decide

theorem Op.key_ne_cu (op : Op) : op.key ≠ utf16 "cu" := by
  cases op <;> simp only [Op.key] <;> decide

theorem PayMeQR.run_cons (s : PayMeQR) (op : Op) (ops : List Op) :
    s.run (op :: ops) = ((s.call op).self).run ops := rfl

theorem PayMeQR.run_append (s : PayMeQR) (ops : List Op) (op : Op) :
    s.run (ops ++ [op]) = ((s.run ops).call op).self := by
  simp [PayMeQR.run, List.foldl_append]

/-! ## Instances reached from the constructor -/

theorem formUrlEncode_paramName (k : JSString) (h : k ∈ paramNames) :
    formUrlEncode k = k := by
  simp only [paramNames, List.mem_cons, List.mem_singleton, List.not_mem_nil, or_false] at h
  rcases h with h | h | h | h | h <;> subst h <;> decide

theorem Reached.call {t : JSString} {s : PayMeQR} (h : Reached t s) (op : Op) :
    Reached t (s.call op).self := by
  rcases PayMeQR.call_cases s op with ⟨_, e⟩ | ⟨_, v, e⟩
  · rw [e]; exact h
  · rw [e]
    obtain ⟨rest, hr⟩ := h.head
    refine ⟨?_, ?_, ?_, ?_⟩
    · refine ⟨Params.set rest op.key v, ?_⟩
      have hne : ¬ utf16 "pa" = op.key := fun e => Op.key_ne_pa op e.symm
      simp only [hr, Params.set, hne, if_false]
    · simp only
      rw [Params.get_set_ne _ _ _ _ (Op.key_ne_cu op).symm]
      exact h.cu
    · simp only
      rw [Params.keys_set]
      split
      · exact h.nodup
      · rename_i hk
        exact List.Nodup.append h.nodup (List.nodup_singleton _) (by simpa using hk)
    · simp only
      rw [Params.keys_set]
      split
      · exact h.names
      · intro k hk
        rcases List.mem_append.1 hk with hk | hk
        · exact h.names k hk
        · simp only [List.mem_singleton] at hk
          subst hk
          have := Op.key_mem op
          simp only [List.mem_cons, List.mem_singleton, List.not_mem_nil, or_false] at this
          simp only [paramNames, List.mem_cons, List.mem_singleton, List.not_mem_nil, or_false]
          tauto

theorem Reached.run {t : JSString} {s : PayMeQR} (h : Reached t s) (ops : List Op) :
    Reached t (s.run ops) := by
  induction ops generalizing s with
  | nil => exact h
  | cons op ops ih =>
    rw [PayMeQR.run_cons]
    exact ih (h.call op)

theorem trim_nil : trim [] = [] := rfl

/-- The constructor succeeds exactly on a string whose trimmed form passes the
regular expression, and then builds `pa` and `cu`. -/
theorem PayMeQR.constructor_eq_ok (v : JSValue) (s0 : PayMeQR) (h : PayMeQR.constructor v = .ok s0) :
    ∃ s, v = .str s ∧ upiIdRegexTest (trim s) = true ∧
      s0 = { params := [(utf16 "pa", trim s), (utf16 "cu", utf16 "INR")] } := by
  unfold PayMeQR.constructor at h
  split at h
  · cases h
  · rename_i hc
    simp only [Bool.or_eq_true, Bool.not_eq_true', not_or, Bool.not_eq_false] at hc
    obtain ⟨⟨_, hs⟩, hr⟩ := hc
    cases v with
    | str s =>
      refine ⟨s, rfl, by simpa [JSValue.asString] using hr, ?_⟩
      simp only [JSValue.asString] at h
      injection h with h
      exact h.symm
    | _ => simp [JSValue.isString] at hs

theorem PayMeQR.constructor_str_ok (s : JSString) (h : upiIdRegexTest (trim s) = true) :
    PayMeQR.constructor (.str s)
      = .ok { params := [(utf16 "pa", trim s), (utf16 "cu", utf16 "INR")] } := by
  have hne : s ≠ [] := by
    intro e
    subst e
    simp [trim_nil, upiIdRegexTest] at h
  have ht : (JSValue.str s).truthy = true := by
    cases s with
    | nil => exact absurd rfl hne
    | cons a l => rfl
  simp [PayMeQR.constructor, ht, JSValue.isString, JSValue.asString, h]

theorem reached_constructor (v : JSValue) (s0 : PayMeQR) (h : PayMeQR.constructor v = .ok s0) :
    Reached (trim v.asString) s0 := by
  obtain ⟨s, rfl, _, rfl⟩ := PayMeQR.constructor_eq_ok v s0 h
  have hne : utf16 "pa" ≠ utf16 "cu" := by decide
  refine ⟨⟨_, rfl⟩, by simp [Params.get, hne], by simp [Params.keys, hne], ?_⟩
  intro k hk
  simp only [Params.keys, List.map_cons, List.map_nil, List.mem_cons, List.mem_singleton,
    List.not_mem_nil, or_false] at hk
  simp only [paramNames, List.mem_cons, List.mem_singleton, List.not_mem_nil, or_false]
  tauto

/-- The characters of a string that passes the regular expression. -/
theorem upiIdRegexTest_chars (t : JSString) (h : upiIdRegexTest t = true) :
    t ≠ [] ∧ ∀ c ∈ t, c < 0x80 ∧ c ≠ 0x20 := by
  unfold upiIdRegexTest at h
  split at h
  · rename_i handle hd
    simp only [Bool.and_eq_true, decide_eq_true_eq, List.all_eq_true] at h
    have hsplit : t = t.takeWhile isLocalChar ++ 0x40 :: handle := by
      rw [← hd, List.takeWhile_append_dropWhile]
    refine ⟨?_, ?_⟩
    · intro e
      rw [e] at hd
      simp at hd
    · intro c hc
      rw [hsplit] at hc
      rcases List.mem_append.1 hc with hc | hc
      · have := List.mem_takeWhile_imp hc
        simp only [isLocalChar, isAlpha, isDigit, Bool.or_eq_true, Bool.and_eq_true,
          decide_eq_true_eq, beq_iff_eq] at this
        omega
      · rcases List.mem_cons.1 hc with hc | hc
        · subst hc; omega
        · have := h.1.1.2 c hc
          simp only [isAlpha, Bool.or_eq_true, Bool.and_eq_true, decide_eq_true_eq] at this
          omega
  · cases h

theorem reached_filter_ne {t : JSString} {s : PayMeQR} (h : Reached t s) (ht : t ≠ []) :
    s.params.filter (fun kv => decide (kv.2 ≠ [])) ≠ [] := by
  obtain ⟨rest, hr⟩ := h.head
  rw [hr]
  simp [List.filter_cons, ht]

/-- The keys of the link of a reached instance are its property names with a
non-empty value, in property order. -/
theorem reached_linkKeys {t : JSString} {s : PayMeQR} (h : Reached t s) (ht : t ≠ []) :
    linkKeys s.getLink
      = s.params.keys.filter (fun k => decide (s.params.get k ≠ some [])) := by
  unfold linkKeys
  rw [linkPairs_getLink s (reached_filter_ne h ht), List.map_map,
    ← Params.keys_filter_nonempty s.params h.nodup]
  apply List.map_congr_left
  intro kv hkv
  have hk : kv.1 ∈ s.params.keys :=
    List.mem_map_of_mem Prod.fst (List.mem_of_mem_filter hkv)
  exact formUrlEncode_paramName kv.1 (h.names kv.1 hk)

/-! ## Property order after a sequence of calls -/

theorem mem_firstOccurrences (l : List JSString) (k : JSString)
    (h : k ∈ firstOccurrences l) : k ∈ l := by
  induction l with
  | nil => simp [firstOccurrences] at h
  | cons a l ih =>
    simp only [firstOccurrences, List.mem_cons, List.mem_filter] at h
    rcases h with h | h
    · exact h ▸ List.mem_cons_self _ _
    · exact List.mem_cons_of_mem _ (ih h.1)

theorem PayMeQR.acceptedKeys_mem (s : PayMeQR) (ops : List Op) (k : JSString)
    (h : k ∈ s.acceptedKeys ops) : k ∈ [utf16 "pn", utf16 "am", utf16 "tn"] := by
  induction ops generalizing s with
  | nil => simp [PayMeQR.acceptedKeys] at h
  | cons op ops ih =>
    simp only [PayMeQR.acceptedKeys] at h
    split at h
    · rcases List.mem_cons.1 h with h | h
      · exact h ▸ Op.key_mem op
      · exact ih _ h
    · exact ih _ h

/-- The property names after a sequence of calls: those present before, then
the names written by accepted calls that were not present, each at the place of
its first accepted call. -/
theorem PayMeQR.keys_run (s : PayMeQR) (ops : List Op) :
    (s.run ops).params.keys =
      s.params.keys ++
        (firstOccurrences (s.acceptedKeys ops)).filter
          (fun k => decide (k ∉ s.params.keys)) := by
  induction ops generalizing s with
  | nil => simp [PayMeQR.run, PayMeQR.acceptedKeys, firstOccurrences]
  | cons op ops ih =>
    rw [PayMeQR.run_cons, ih]
    rcases PayMeQR.call_cases s op with ⟨ht, e⟩ | ⟨ht, v, e⟩
    · simp only [PayMeQR.acceptedKeys, ht, if_false, e]
    · simp only [PayMeQR.acceptedKeys, ht, if_true, firstOccurrences]
      rw [e]
      simp only [Params.keys_set]
      by_cases hk : op.key ∈ s.params.keys
      · simp only [hk, if_true, List.filter_cons, decide_not, decide_True, Bool.not_true,
          Bool.false_eq_true, if_false, List.filter_filter]
        congr 1
        apply List.filter_congr
        intro x _
        by_cases hx : x ∈ s.params.keys
        · simp [hx]
        · have : x ≠ op.key := fun e => hx (e ▸ hk)
          simp [hx, this]
      · simp only [hk, if_false, List.filter_cons, decide_not, decide_False, Bool.not_false,
          if_true, List.filter_filter, List.append_assoc, List.singleton_append]
        congr 2
        apply List.filter_congr
        intro x _
        by_cases h1 : x ∈ s.params.keys <;> by_cases h2 : x = op.key <;> simp [h1, h2]

/-! ## Order of the keys in the link (C1) -/

/-- C1, as stated, fails: on the instance built from `ab@upi`, `setNote("hi")`
followed by `setPayeeName("Bob")` gives the link
`upi://pay?pa=ab%40upi&cu=INR&tn=hi&pn=Bob`, whose keys are `pa, cu, tn, pn`:
`tn` comes before `pn`, so the keys are not in the order `pa, cu, pn, am, tn`. -/
theorem setNote_then_setPayeeName_keys_out_of_order :
    (PayMeQR.constructor (.str (utf16 "ab@upi"))).toOption
        = some { params := [(utf16 "pa", utf16 "ab@upi"), (utf16 "cu", utf16 "INR")] } ∧
    (PayMeQR.run { params := [(utf16 "pa", utf16 "ab@upi"), (utf16 "cu", utf16 "INR")] }
        [.setNote (.str (utf16 "hi")), .setPayeeName (.str (utf16 "Bob"))]).getLink
      = utf16 "upi://pay?pa=ab%40upi&cu=INR&tn=hi&pn=Bob" ∧
    linkKeys (PayMeQR.run
        { params := [(utf16 "pa", utf16 "ab@upi"), (utf16 "cu", utf16 "INR")] }
        [.setNote (.str (utf16 "hi")), .setPayeeName (.str (utf16 "Bob"))]).getLink
      = [utf16 "pa", utf16 "cu", utf16 "tn", utf16 "pn"] ∧
    ¬ List.Sublist
        (linkKeys (PayMeQR.run
          { params := [(utf16 "pa", utf16 "ab@upi"), (utf16 "cu", utf16 "INR")] }
          [.setNote (.str (utf16 "hi")), .setPayeeName (.str (utf16 "Bob"))]).getLink)
        paramNames := by
  refine ⟨by decide, by decide, by decide, by decide⟩

/-- C1, amended: for every constructed instance and every sequence of setter
calls, the keys of the encoded link are `pa`, `cu`, then the keys written by
the accepted calls in the order of the first accepted call of each, restricted
to the keys whose value is not the empty string. The order follows the order of
the calls. -/
theorem linkKeys_follow_first_accepted_call (upiId : JSValue) (s0 : PayMeQR)
    (ops : List Op) (h : PayMeQR.constructor upiId = .ok s0) :
    linkKeys (s0.run ops).getLink =
      ([utf16 "pa", utf16 "cu"] ++ firstOccurrences (s0.acceptedKeys ops)).filter
        (fun k => decide ((s0.run ops).params.get k ≠ some [])) := by
  obtain ⟨s, hv, hre, hs0⟩ := PayMeQR.constructor_eq_ok upiId s0 h
  have hr := (reached_constructor upiId s0 h).run ops
  rw [reached_linkKeys hr (by rw [hv]; exact (upiIdRegexTest_chars _ hre).1),
    PayMeQR.keys_run]
  congr 1
  have hk : s0.params.keys = [utf16 "pa", utf16 "cu"] := by rw [hs0]; rfl
  rw [hk]
  congr 1
  rw [List.filter_eq_self]
  intro k hk'
  have := PayMeQR.acceptedKeys_mem s0 ops k (mem_firstOccurrences _ k hk')
  simp only [List.mem_cons, List.mem_singleton, List.not_mem_nil, or_false] at this
  rcases this with e | e | e <;> subst e <;> decide

/-- Witness for C1 amended: `setNote("hi")`, a rejected `setAmount(0)`, then
`setPayeeName("Bob")` on the instance built from `ab@upi`. -/
theorem linkKeys_follow_first_accepted_call_witness :
    linkKeys (PayMeQR.run
        { params := [(utf16 "pa", utf16 "ab@upi"), (utf16 "cu", utf16 "INR")] }
        [.setNote (.str (utf16 "hi")), .setAmount (.num (.fin false 0 0)),
          .setPayeeName (.str (utf16 "Bob"))]).getLink =
      ([utf16 "pa", utf16 "cu"] ++
        firstOccurrences (PayMeQR.acceptedKeys
          { params := [(utf16 "pa", utf16 "ab@upi"), (utf16 "cu", utf16 "INR")] }
          [.setNote (.str (utf16 "hi")), .setAmount (.num (.fin false 0 0)),
            .setPayeeName (.str (utf16 "Bob"))])).filter
        (fun k => decide ((PayMeQR.run
          { params := [(utf16 "pa", utf16 "ab@upi"), (utf16 "cu", utf16 "INR")] }
          [.setNote (.str (utf16 "hi")), .setAmount (.num (.fin false 0 0)),
            .setPayeeName (.str (utf16 "Bob"))]).params.get k ≠ some [])) :=
  linkKeys_follow_first_accepted_call (.str (utf16 "ab@upi")) _ _ (by rfl)

/-! ## The constructor (C2, C3) -/

theorem mem_trim (s : JSString) (c : Nat) (h : c ∈ trim s) : c ∈ s := by
  unfold trim at h
  rw [List.mem_reverse] at h
  have h1 := (List.dropWhile_suffix isWhiteSpace).subset h
  rw [List.mem_reverse] at h1
  exact (List.dropWhile_suffix isWhiteSpace).subset h1

/-- A string that passes the regular expression is a run of 2 to 256 local
characters, `@`, and 2 to 64 letters. -/
theorem upiIdRegexTest_shape (t : JSString) (h : upiIdRegexTest t = true) :
    ∃ loc handle, t = loc ++ 0x40 :: handle ∧
      (∀ c ∈ loc, isLocalChar c = true) ∧ 2 ≤ loc.length ∧ loc.length ≤ 256 ∧
      (∀ c ∈ handle, isAlpha c = true) ∧ 2 ≤ handle.length ∧ handle.length ≤ 64 := by
  unfold upiIdRegexTest at h
  split at h
  · rename_i handle hd
    simp only [Bool.and_eq_true, decide_eq_true_eq, List.all_eq_true] at h
    refine ⟨t.takeWhile isLocalChar, handle, ?_, ?_, h.1.1.1.1, h.1.1.1.2, h.1.1.2, h.1.2, h.2⟩
    · rw [← hd, List.takeWhile_append_dropWhile]
    · intro c hc
      exact List.mem_takeWhile_imp hc
  · cases h

theorem upiIdRegexTest_of_shape (loc handle : JSString)
    (hloc : ∀ c ∈ loc, isLocalChar c = true) (hl : 2 ≤ loc.length ∧ loc.length ≤ 256)
    (hh : ∀ c ∈ handle, isAlpha c = true) (hhl : 2 ≤ handle.length ∧ handle.length ≤ 64) :
    upiIdRegexTest (loc ++ 0x40 :: handle) = true := by
  have hs := takeWhile_append_stop isLocalChar loc handle 0x40 hloc (by decide)
  unfold upiIdRegexTest
  rw [hs.1, hs.2]
  simp only [Bool.and_eq_true, decide_eq_true_eq, List.all_eq_true]
  exact ⟨⟨⟨⟨hl.1, hl.2⟩, hh⟩, hhl.1⟩, hhl.2⟩

/-- Two ways of cutting a list at `x` agree on what follows `x` when `x` occurs
only once in one of them. -/
theorem append_cons_unique (x : Nat) (a b a1 b1 : List Nat)
    (h : a ++ x :: b = a1 ++ x :: b1) (ha1 : x ∉ a1) (hb1 : x ∉ b1) : b = b1 := by
  induction a generalizing a1 with
  | nil =>
    cases a1 with
    | nil => simpa using h
    | cons y a2 =>
      simp only [List.nil_append, List.cons_append, List.cons.injEq] at h
      exact absurd (h.1 ▸ List.mem_cons_self _ _) ha1
  | cons z a ih =>
    cases a1 with
    | nil =>
      simp only [List.nil_append, List.cons_append, List.cons.injEq] at h
      exact absurd (h.2 ▸ List.mem_append_right _ (List.mem_cons_self _ _)) hb1
    | cons y a2 =>
      simp only [List.cons_append, List.cons.injEq] at h
      exact ih a2 h.2 (fun hm => ha1 (List.mem_cons_of_mem _ hm))

theorem isLocalChar_at : isLocalChar 0x40 = false := by decide

theorem isAlpha_at : isAlpha 0x40 = false := by decide

/-- C2, as stated, fails: `ab@x` has a local part of 2 characters and a handle
of 1 letter, yet the constructor throws. -/
theorem constructor_rejects_one_letter_handle :
    trim (utf16 "ab@x") = utf16 "ab" ++ 0x40 :: utf16 "x" ∧
    (∀ c ∈ utf16 "ab", isLocalChar c = true) ∧
    2 ≤ (utf16 "ab").length ∧ (utf16 "ab").length ≤ 256 ∧
    (∀ c ∈ utf16 "x", isAlpha c = true) ∧
    1 ≤ (utf16 "x").length ∧ (utf16 "x").length ≤ 64 ∧
    PayMeQR.constructor (.str (utf16 "ab@x")) = .error "Invalid or missing UPI ID" := by
  refine ⟨by decide, by decide, by decide, by decide, by decide, by decide, by decide, by rfl⟩

/-- C2, amended: for every string whose trimmed form is a local part of 2 to 256
characters among letters, digits, `.`, `-`, `_`, then `@`, then a handle of 2 to
64 letters, the constructor succeeds, the stored `pa` is the trimmed input, and
in the link of the instance, then and after any sequence of setter calls,
percent-decoding the value of the `pa` key gives back the trimmed input. -/
theorem constructor_accepts_and_pa_round_trips (s loc handle : JSString)
    (hshape : trim s = loc ++ 0x40 :: handle)
    (hloc : ∀ c ∈ loc, isLocalChar c = true)
    (hl : 2 ≤ loc.length ∧ loc.length ≤ 256)
    (hh : ∀ c ∈ handle, isAlpha c = true)
    (hhl : 2 ≤ handle.length ∧ handle.length ≤ 64) :
    ∃ store, PayMeQR.constructor (.str s) = .ok store ∧
      store.params.get (utf16 "pa") = some (trim s) ∧
      ∀ ops, (linkValue (store.run ops).getLink (utf16 "pa")).map percentDecode
        = some (trim s) := by
  have hre : upiIdRegexTest (trim s) = true := by
    rw [hshape]
    exact upiIdRegexTest_of_shape loc handle hloc hl hh hhl
  have hcons := PayMeQR.constructor_str_ok s hre
  refine ⟨_, hcons, by simp [Params.get], ?_⟩
  intro ops
  have hr := (reached_constructor _ _ hcons).run ops
  simp only [JSValue.asString] at hr
  have hchars := upiIdRegexTest_chars _ hre
  obtain ⟨rest, hrest⟩ := hr.head
  unfold linkValue
  rw [linkPairs_getLink _ (reached_filter_ne hr hchars.1), hrest]
  have hpa : formUrlEncode (utf16 "pa") = utf16 "pa" := by decide
  simp only [List.filter_cons, ne_eq, hchars.1, not_false_eq_true, decide_True, if_true,
    List.map_cons, Params.get, hpa, Option.map_some']
  rw [percentDecode_formUrlEncode _ hchars.2]

/-- Witness for C2 amended: the input `  ab@upi ` with surrounding white space. -/
theorem constructor_accepts_and_pa_round_trips_witness :
    ∃ store, PayMeQR.constructor (.str (utf16 "  ab@upi ")) = .ok store ∧
      store.params.get (utf16 "pa") = some (trim (utf16 "  ab@upi ")) ∧
      ∀ ops, (linkValue (store.run ops).getLink (utf16 "pa")).map percentDecode
        = some (trim (utf16 "  ab@upi ")) :=
  constructor_accepts_and_pa_round_trips (utf16 "  ab@upi ") (utf16 "ab") (utf16 "upi")
    (by decide) (by decide) (by decide) (by decide) (by decide)

/-- C3: the constructor throws `Invalid or missing UPI ID`, and builds no
instance, for every `upiId` that is not a string (a missing one is
`undefined`), is the empty string, contains no `@`, or whose trimmed form is
cut at an `@` with a handle that is not made of 1 to 64 letters. -/
theorem constructor_rejects_bad_payeeId (upiId : JSValue)
    (h : (∀ s, upiId ≠ .str s) ∨ upiId = .str [] ∨
      (∃ s, upiId = .str s ∧ 0x40 ∉ s) ∨
      (∃ s loc handle, upiId = .str s ∧ trim s = loc ++ 0x40 :: handle ∧
        ¬ ((∀ c ∈ handle, isAlpha c = true) ∧ 1 ≤ handle.length ∧ handle.length ≤ 64))) :
    PayMeQR.constructor upiId = .error "Invalid or missing UPI ID" := by
  cases hcons : PayMeQR.constructor upiId with
  | error msg =>
    unfold PayMeQR.constructor at hcons
    split at hcons
    · exact hcons.symm
    · cases hcons
  | ok s0 =>
    exfalso
    obtain ⟨s, hv, hre, _⟩ := PayMeQR.constructor_eq_ok upiId s0 hcons
    obtain ⟨loc1, handle1, ht, hloc1, _, _, hh1, hh2, hh3⟩ := upiIdRegexTest_shape _ hre
    rcases h with h | h | ⟨s', hs', hat⟩ | ⟨s', loc, handle, hs', hcut, hbad⟩
    · exact h s hv
    · rw [hv] at h
      injection h with h
      subst h
      simp [trim_nil] at ht
    · rw [hv] at hs'
      injection hs' with hs'
      subst hs'
      apply hat
      apply mem_trim
      rw [ht]
      exact List.mem_append_right _ (List.mem_cons_self _ _)
    · rw [hv] at hs'
      injection hs' with hs'
      subst hs'
      rw [ht] at hcut
      have hb : handle = handle1 := by
        refine append_cons_unique 0x40 loc handle loc1 handle1 hcut.symm ?_ ?_
        · intro hm
          have := hloc1 _ hm
          rw [isLocalChar_at] at this
          cases this
        · intro hm
          have := hh1 _ hm
          rw [isAlpha_at] at this
          cases this
      subst hb
      exact hbad ⟨hh1, by omega, hh3⟩

/-- Witness for C3: `ab@` has an empty handle. -/
theorem constructor_rejects_bad_payeeId_witness :
    PayMeQR.constructor (.str (utf16 "ab@")) = .error "Invalid or missing UPI ID" :=
  constructor_rejects_bad_payeeId (.str (utf16 "ab@"))
    (Or.inr (Or.inr (Or.inr ⟨utf16 "ab@", utf16 "ab", [], rfl, by decide, by decide⟩)))

/-! ## The setters (C5, C6) -/

/-- C5: on a string, `setNote` throws exactly when the raw length exceeds 80,
leaving the instance as it was; otherwise it returns and stores the trimmed
note in `tn`. A note of 80 code units of which 78 are surrounding spaces is
accepted and stored as `hi`. -/
theorem setNote_rejects_iff_longer_than_80 (self : PayMeQR) (note : JSString) :
    ((self.setNote (.str note)).thrown ≠ none ↔ 80 < note.length) ∧
    (80 < note.length →
      self.setNote (.str note) =
        { self := self, thrown := some "Note must be a string up to 80 characters" }) ∧
    (note.length ≤ 80 →
      self.setNote (.str note) =
        { self := { params := self.params.set (utf16 "tn") (trim note) }, thrown := none } ∧
      (self.setNote (.str note)).self.params.get (utf16 "tn") = some (trim note)) ∧
    (paddedNote.length = 80 ∧
      (self.setNote (.str paddedNote)).thrown = none ∧
      (self.setNote (.str paddedNote)).self.params.get (utf16 "tn") = some (utf16 "hi")) := by
  have hlong : 80 < note.length →
      self.setNote (.str note) =
        { self := self, thrown := some "Note must be a string up to 80 characters" } := by
    intro h
    simp [PayMeQR.setNote, JSValue.isString, JSValue.asString, h]
  have hshort : ∀ n : JSString, n.length ≤ 80 →
      self.setNote (.str n) =
        { self := { params := self.params.set (utf16 "tn") (trim n) }, thrown := none } := by
    intro n h
    have : ¬ 80 < n.length := by omega
    simp [PayMeQR.setNote, JSValue.isString, JSValue.asString, this]
  refine ⟨?_, hlong, ?_, ?_⟩
  · constructor
    · intro h
      by_contra hle
      rw [hshort note (by omega)] at h
      exact h rfl
    · intro h
      rw [hlong h]
      simp
  · intro h
    refine ⟨hshort note h, ?_⟩
    rw [hshort note h]
    exact Params.get_set_self _ _ _
  · have hp : paddedNote.length = 80 := by decide
    have ht : trim paddedNote = utf16 "hi" := by decide
    refine ⟨hp, ?_, ?_⟩
    · rw [hshort paddedNote (by omega)]
    · rw [hshort paddedNote (by omega), ← ht]
      exact Params.get_set_self _ _ _

/-- C6, as stated, fails: `setAmount` converts its argument with `parseFloat`
before it tests it, so an object whose `toString` assigns `params.pa` and
returns `abc` makes `setAmount` throw `Invalid amount` and leaves `pa`
changed: the call is rejected and the parameters are not what they were. -/
theorem setAmount_rejected_after_toString_wrote_params :
    (PayMeQR.constructor (.str (utf16 "ab@upi"))).toOption = some sampleStore ∧
    (sampleStore.setAmountActive writingObject).thrown = some "Invalid amount" ∧
    (sampleStore.setAmountActive writingObject).self.params
      = [(utf16 "pa", utf16 "zz@upi"), (utf16 "cu", utf16 "INR")] ∧
    (sampleStore.setAmountActive writingObject).self ≠ sampleStore ∧
    (sampleStore.setAmountActive writingObject).self.params.get (utf16 "pa")
      ≠ sampleStore.params.get (utf16 "pa") := by
  refine ⟨by decide, by decide, by decide, by decide, by decide⟩

/-- C6, amended: on every instance reached from a constructed one by setter
calls, a further call to `setPayeeName`, `setAmount` or `setNote` with a value
whose conversion does not touch the instance (`undefined`, `null`, a boolean, a
number, a string, an object that leaves the instance alone) either throws and
leaves the instance as it was, or returns after assigning its own property
(`pn`, `am`, `tn`) and nothing else: every other property keeps its value and
its place; `pa` is the trimmed `upiId` given to the constructor and `cu` is
`INR`. For an object whose conversion runs code on the instance, `setAmount`
itself writes nothing when it throws and only `am` when it returns: the
instance is then as the conversion left it, up to `am`; when the conversion
left the instance as it was, the same holds as for any other value. -/
theorem setter_rejects_or_writes_one_field (upiId : JSValue) (s0 : PayMeQR)
    (ops : List Op) (op : Op) (h : PayMeQR.constructor upiId = .ok s0) :
    (((s0.run ops).call op).thrown ≠ none → ((s0.run ops).call op).self = s0.run ops) ∧
    (((s0.run ops).call op).thrown = none →
      ∃ v, ((s0.run ops).call op).self.params = (s0.run ops).params.set op.key v ∧
        ((s0.run ops).call op).self.params.get op.key = some v ∧
        (∀ k, k ≠ op.key →
          ((s0.run ops).call op).self.params.get k = (s0.run ops).params.get k) ∧
        ((s0.run ops).call op).self.params.filter (fun kv => decide (kv.1 ≠ op.key))
          = (s0.run ops).params.filter (fun kv => decide (kv.1 ≠ op.key))) ∧
    ((s0.run ops).call op).self.params.get (utf16 "pa") = some (trim upiId.asString) ∧
    ((s0.run ops).call op).self.params.get (utf16 "cu") = some (utf16 "INR") ∧
    s0.params.get (utf16 "pa") = some (trim upiId.asString) ∧
    s0.params.get (utf16 "cu") = some (utf16 "INR") ∧
    (∀ o : ActiveObject,
      (((s0.run ops).setAmountActive o).thrown ≠ none →
        ((s0.run ops).setAmountActive o).self = (o.convert (s0.run ops)).1) ∧
      (((s0.run ops).setAmountActive o).thrown = none →
        ∃ v, ((s0.run ops).setAmountActive o).self.params
            = (o.convert (s0.run ops)).1.params.set (utf16 "am") v ∧
          ((s0.run ops).setAmountActive o).self.params.get (utf16 "am") = some v ∧
          (∀ k, k ≠ utf16 "am" →
            ((s0.run ops).setAmountActive o).self.params.get k
              = (o.convert (s0.run ops)).1.params.get k)) ∧
      ((o.convert (s0.run ops)).1 = s0.run ops →
        (((s0.run ops).setAmountActive o).thrown ≠ none →
          ((s0.run ops).setAmountActive o).self = s0.run ops) ∧
        (((s0.run ops).setAmountActive o).thrown = none →
          ∃ v, ((s0.run ops).setAmountActive o).self.params
            = (s0.run ops).params.set (utf16 "am") v) ∧
        ((s0.run ops).setAmountActive o).self.params.get (utf16 "pa")
          = some (trim upiId.asString) ∧
        ((s0.run ops).setAmountActive o).self.params.get (utf16 "cu")
          = some (utf16 "INR"))) := by
  have hr0 := reached_constructor upiId s0 h
  have hr := (hr0.run ops).call op
  have hpa : ∀ s : PayMeQR, Reached (trim upiId.asString) s →
      s.params.get (utf16 "pa") = some (trim upiId.asString) := by
    intro s hs
    obtain ⟨rest, e⟩ := hs.head
    rw [e]
    simp [Params.get]
  have hact : ∀ (s : PayMeQR) (r : Option JSString),
      ((s.setAmount (.obj r)).thrown ≠ none → (s.setAmount (.obj r)).self = s) ∧
      ((s.setAmount (.obj r)).thrown = none →
        ∃ v, (s.setAmount (.obj r)).self.params = s.params.set (utf16 "am") v ∧
          (s.setAmount (.obj r)).self.params.get (utf16 "am") = some v ∧
          (∀ k, k ≠ utf16 "am" → (s.setAmount (.obj r)).self.params.get k = s.params.get k)) := by
    intro s r
    rcases PayMeQR.call_cases s (.setAmount (.obj r)) with ⟨ht, e⟩ | ⟨ht, v, e⟩
    · exact ⟨fun _ => e, fun hn => absurd hn ht⟩
    · refine ⟨fun hn => absurd ht hn, fun _ => ⟨v, ?_, ?_, ?_⟩⟩
      · exact congrArg PayMeQR.params e
      · rw [show (s.setAmount (.obj r)).self = _ from e]
        exact Params.get_set_self _ _ _
      · intro k hk
        rw [show (s.setAmount (.obj r)).self = _ from e]
        exact Params.get_set_ne _ _ _ _ hk
  refine ⟨?_, ?_, hpa _ hr, hr.cu, hpa _ hr0, hr0.cu, ?_⟩
  · intro ht
    rcases PayMeQR.call_cases (s0.run ops) op with ⟨_, e⟩ | ⟨ht2, _⟩
    · exact e
    · exact absurd ht2 ht
  · intro ht
    rcases PayMeQR.call_cases (s0.run ops) op with ⟨ht2, _⟩ | ⟨_, v, e⟩
    · exact absurd ht ht2
    · refine ⟨v, by rw [e], ?_, ?_, ?_⟩
      · rw [e]; exact Params.get_set_self _ _ _
      · intro k hk
        rw [e]; exact Params.get_set_ne _ _ _ _ hk
      · rw [e]; exact Params.filter_set_ne _ _ _
  · intro o
    refine ⟨(hact _ _).1, (hact _ _).2, ?_⟩
    intro hq
    have hra := (hr0.run ops).call (.setAmount (.obj (o.convert (s0.run ops)).2))
    have e : (s0.run ops).setAmountActive o
        = (s0.run ops).call (.setAmount (.obj (o.convert (s0.run ops)).2)) := by
      simp only [PayMeQR.setAmountActive, PayMeQR.call, hq]
    rw [e]
    refine ⟨?_, ?_, hpa _ hra, hra.cu⟩
    · exact (hact (s0.run ops) _).1
    · intro hn
      obtain ⟨v, hv, _⟩ := (hact (s0.run ops) _).2 hn
      exact ⟨v, hv⟩

/-- Witness for C6 amended: `setAmount("10.5")` after `setNote("hi")` on the
instance built from `ab@upi`. -/
theorem setter_rejects_or_writes_one_field_witness :
    (PayMeQR.call (PayMeQR.run
        { params := [(utf16 "pa", utf16 "ab@upi"), (utf16 "cu", utf16 "INR")] }
        [.setNote (.str (utf16 "hi"))]) (.setAmount (.str (utf16 "10.5")))).self.params.get
      (utf16 "pa") = some (trim (JSValue.str (utf16 "ab@upi")).asString) :=
  (setter_rejects_or_writes_one_field (.str (utf16 "ab@upi")) _
    [.setNote (.str (utf16 "hi"))] (.setAmount (.str (utf16 "10.5"))) (by rfl)).2.2.1

/-! ## Reading the encoded text back (C7) -/

theorem utf8Encode_lt (c : Nat) (hc : c < 0x110000) : ∀ b ∈ utf8Encode c, b < 0x100 := by
  intro b hb
  unfold utf8Encode at hb
  split at hb
  · simp only [List.mem_singleton] at hb; omega
  · split at hb
    · simp only [List.mem_cons, List.mem_singleton, List.not_mem_nil, or_false] at hb
      rcases hb with hb | hb <;> omega
    · split at hb
      · simp only [List.mem_cons, List.mem_singleton, List.not_mem_nil, or_false] at hb
        rcases hb with hb | hb | hb <;> omega
      · simp only [List.mem_cons, List.mem_singleton, List.not_mem_nil, or_false] at hb
        rcases hb with hb | hb | hb | hb <;> omega

theorem utf8DecodeAux_encode (c : Nat) (hc : c < 0x110000) (rest : List Nat) :
    utf8DecodeAux (utf8Encode c ++ rest) 0 0 = c :: utf8DecodeAux rest 0 0 := by
  unfold utf8Encode
  by_cases h1 : c < 0x80
  · simp [h1, utf8DecodeAux]
  · by_cases h2 : c < 0x800
    · have a1 : ¬ (0xC0 + c / 0x40 < 0x80) := by omega
      have a2 : 0xC0 + c / 0x40 < 0xE0 := by omega
      have a3 : (0xC0 + c / 0x40 - 0xC0) * 0x40 + (0x80 + c % 0x40 - 0x80) = c := by omega
      simp only [h1, h2, if_false, if_true, List.cons_append, List.nil_append, utf8DecodeAux,
        a1, a2, a3]
    · by_cases h3 : c < 0x10000
      · have a1 : ¬ (0xE0 + c / 0x1000 < 0x80) := by omega
        have a2 : ¬ (0xE0 + c / 0x1000 < 0xE0) := by omega
        have a3 : 0xE0 + c / 0x1000 < 0xF0 := by omega
        have a4 : ((0xE0 + c / 0x1000 - 0xE0) * 0x40 + (0x80 + c / 0x40 % 0x40 - 0x80)) * 0x40
            + (0x80 + c % 0x40 - 0x80) = c := by omega
        simp only [h1, h2, h3, if_false, if_true, List.cons_append, List.nil_append,
          utf8DecodeAux, a1, a2, a3, a4, Nat.succ_ne_zero, Nat.reduceEqDiff]
      · have a1 : ¬ (0xF0 + c / 0x40000 < 0x80) := by omega
        have a2 : ¬ (0xF0 + c / 0x40000 < 0xE0) := by omega
        have a3 : ¬ (0xF0 + c / 0x40000 < 0xF0) := by omega
        have a4 : (((0xF0 + c / 0x40000 - 0xF0) * 0x40 + (0x80 + c / 0x1000 % 0x40 - 0x80))
            * 0x40 + (0x80 + c / 0x40 % 0x40 - 0x80)) * 0x40 + (0x80 + c % 0x40 - 0x80) = c := by
          omega
        simp only [h1, h2, h3, if_false, if_true, List.cons_append, List.nil_append,
          utf8DecodeAux, a1, a2, a3, a4, Nat.succ_ne_zero, Nat.reduceEqDiff]

theorem utf8Decode_encode (l : List Nat) (h : ∀ c ∈ l, c < 0x110000) :
    utf8Decode (l.flatMap utf8Encode) = l := by
  unfold utf8Decode
  induction l with
  | nil => rfl
  | cons c l ih =>
    rw [List.flatMap_cons, utf8DecodeAux_encode c (h c (List.mem_cons_self _ _)),
      ih (fun x hx => h x (List.mem_cons_of_mem _ hx))]

theorem toScalars_wellFormed (s : JSString) (h : wellFormed s = true) :
    (∀ c ∈ toScalars s, c < 0x110000) ∧ (toScalars s).flatMap utf16Char = s := by
  induction s using toScalars.induct with
  | case1 => simp [toScalars]
  | case2 c hc =>
    simp only [wellFormed, Bool.or_eq_true, Bool.and_eq_true, decide_eq_true_eq] at h
    omega
  | case3 c hc =>
    simp only [wellFormed, Bool.or_eq_true, Bool.and_eq_true, decide_eq_true_eq] at h
    have hlt : c < 0x10000 := by omega
    simp only [toScalars, hc, if_false, List.mem_singleton, List.flatMap_cons,
      List.flatMap_nil, List.append_nil, utf16Char, hlt, if_true]
    exact ⟨fun x hx => by omega, trivial⟩
  | case4 c d rest hc ih =>
    have hhi : 0xD800 ≤ c ∧ c ≤ 0xDBFF := ⟨hc.1, hc.2.1⟩
    simp only [wellFormed, hhi, and_self, if_true, Bool.and_eq_true, decide_eq_true_eq] at h
    obtain ⟨ih1, ih2⟩ := ih h.2
    have hn : ¬ (0x10000 + (c - 0xD800) * 0x400 + (d - 0xDC00) < 0x10000) := by omega
    have e1 : 0xD800 + (0x10000 + (c - 0xD800) * 0x400 + (d - 0xDC00) - 0x10000) / 0x400 = c := by
      omega
    have e2 : 0xDC00 + (0x10000 + (c - 0xD800) * 0x400 + (d - 0xDC00) - 0x10000) % 0x400 = d := by
      omega
    constructor
    · intro x hx
      simp only [toScalars, hc, and_self, if_true, List.mem_cons] at hx
      rcases hx with hx | hx
      · omega
      · exact ih1 x hx
    · simp only [toScalars, hc, and_self, if_true, List.flatMap_cons, utf16Char, hn, if_false,
        e1, e2, ih2, List.cons_append, List.nil_append]
  | case5 c d rest h1 h2 ih =>
    exfalso
    by_cases hhi : 0xD800 ≤ c ∧ c ≤ 0xDBFF
    · simp only [wellFormed, hhi, and_self, if_true, Bool.and_eq_true, decide_eq_true_eq] at h
      exact h1 ⟨hhi.1, hhi.2, h.1.1, h.1.2⟩
    · simp only [wellFormed, hhi, if_false, Bool.and_eq_true, Bool.or_eq_true,
        decide_eq_true_eq] at h
      omega
  | case6 c d rest h1 h2 ih =>
    have hhi : ¬ (0xD800 ≤ c ∧ c ≤ 0xDBFF) := by omega
    simp only [wellFormed, hhi, if_false, Bool.and_eq_true, Bool.or_eq_true,
      decide_eq_true_eq] at h
    obtain ⟨ih1, ih2⟩ := ih h.2
    have hlt : c < 0x10000 := by omega
    constructor
    · intro x hx
      simp only [toScalars, h1, h2, if_false, List.mem_cons] at hx
      rcases hx with hx | hx
      · omega
      · exact ih1 x hx
    · simp only [toScalars, h1, h2, if_false, List.flatMap_cons, utf16Char, hlt, if_true, ih2,
        List.singleton_append]

theorem hexDigit_ne_plus (n : Nat) : hexDigit n ≠ 0x2B := by
  unfold hexDigit
  split <;> omega

theorem formDecode_urlencode (bytes : List Nat) (h : ∀ b ∈ bytes, b < 0x100) :
    formDecode (bytes.flatMap urlencodeByte) = bytes := by
  unfold formDecode
  induction bytes with
  | nil => rfl
  | cons b l ih =>
    have hb := h b (List.mem_cons_self _ _)
    have ih2 := ih (fun x hx => h x (List.mem_cons_of_mem _ hx))
    rw [List.flatMap_cons, List.map_append]
    by_cases hs : isUrlencodedSafe b = true
    · have hne : b ≠ 0x25 ∧ b ≠ 0x2B := by
        simp only [isUrlencodedSafe, isAlpha, isDigit, Bool.or_eq_true, Bool.and_eq_true,
          decide_eq_true_eq, beq_iff_eq] at hs
        omega
      have e : (urlencodeByte b).map (fun c => if c = 0x2B then 0x20 else c) = [b] := by
        simp [urlencodeByte, hs, hne.2]
      rw [e, List.singleton_append, percentDecode_cons_of_ne b _ hne.1, ih2]
    · by_cases hsp : b = 0x20
      · have e : (urlencodeByte b).map (fun c => if c = 0x2B then 0x20 else c) = [0x20] := by
          subst hsp
          decide
        rw [e, List.singleton_append, percentDecode_cons_of_ne 0x20 _ (by decide), ih2, hsp]
      · have e : (urlencodeByte b).map (fun c => if c = 0x2B then 0x20 else c)
            = [0x25, hexDigit (b / 16), hexDigit (b % 16)] := by
          simp [urlencodeByte, hs, hsp, hexDigit_ne_plus]
        rw [e]
        simp only [List.cons_append, List.nil_append]
        rw [percentDecode_escape b _ hb, ih2]

/-- Decoding gives back every well-formed string from its encoded text. -/
theorem decodeText_formUrlEncode (s : JSString) (h : wellFormed s = true) :
    decodeText (formUrlEncode s) = s := by
  obtain ⟨h1, h2⟩ := toScalars_wellFormed s h
  unfold decodeText formUrlEncode
  rw [formDecode_urlencode, utf8Decode_encode _ h1, h2]
  intro b hb
  rw [List.mem_flatMap] at hb
  obtain ⟨c, hc, hbc⟩ := hb
  exact utf8Encode_lt c (h1 c hc) b hbc

theorem hexDigit_shape (n : Nat) (h : n < 16) :
    isDigit (hexDigit n) = true ∨ isAlpha (hexDigit n) = true := by
  unfold hexDigit
  by_cases h10 : n < 10
  · left
    simp only [h10, if_true, isDigit, Bool.and_eq_true, decide_eq_true_eq]
    omega
  · right
    simp only [h10, if_false, isAlpha, Bool.or_eq_true, Bool.and_eq_true, decide_eq_true_eq]
    omega

/-- The encoded text of a well-formed string is made of ASCII letters, digits
and `*`, `-`, `.`, `_`, `+`, `%`. -/
theorem formUrlEncode_chars (s : JSString) (h : wellFormed s = true) :
    ∀ c ∈ formUrlEncode s,
      isAlpha c = true ∨ isDigit c = true ∨
        c = 0x2A ∨ c = 0x2D ∨ c = 0x2E ∨ c = 0x5F ∨ c = 0x2B ∨ c = 0x25 := by
  obtain ⟨h1, _⟩ := toScalars_wellFormed s h
  intro c hc
  unfold formUrlEncode at hc
  rw [List.mem_flatMap] at hc
  obtain ⟨b, hb, hcb⟩ := hc
  rw [List.mem_flatMap] at hb
  obtain ⟨x, hx, hbx⟩ := hb
  have hb256 := utf8Encode_lt x (h1 x hx) b hbx
  unfold urlencodeByte at hcb
  split at hcb
  · rename_i hs
    simp only [List.mem_singleton] at hcb
    subst hcb
    simp only [isUrlencodedSafe, Bool.or_eq_true, beq_iff_eq] at hs
    tauto
  · split at hcb
    · simp only [List.mem_singleton] at hcb
      tauto
    · simp only [List.mem_cons, List.mem_singleton, List.not_mem_nil, or_false] at hcb
      rcases hcb with e | e | e
      · tauto
      · rcases hexDigit_shape (b / 16) (by omega) with hd | hd
        · rw [e]; tauto
        · rw [e]; tauto
      · rcases hexDigit_shape (b % 16) (by omega) with hd | hd
        · rw [e]; tauto
        · rw [e]; tauto

/-- Reading the link back: for well-formed names and values, the decoded pairs
of the link are the properties with a non-empty value, in property order. -/
theorem decoded_linkPairs_getLink (self : PayMeQR)
    (hwf : ∀ kv ∈ self.params, wellFormed kv.1 = true ∧ wellFormed kv.2 = true)
    (hne : self.params.filter (fun kv => decide (kv.2 ≠ [])) ≠ []) :
    (linkPairs self.getLink).map (fun kv => (decodeText kv.1, decodeText kv.2))
      = self.params.filter (fun kv => decide (kv.2 ≠ [])) := by
  rw [linkPairs_getLink self hne, List.map_map]
  conv_rhs => rw [← List.map_id (self.params.filter (fun kv => decide (kv.2 ≠ [])))]
  apply List.map_congr_left
  intro kv hkv
  have h := hwf kv (List.mem_of_mem_filter hkv)
  simp only [Function.comp, id, decodeText_formUrlEncode _ h.1, decodeText_formUrlEncode _ h.2]

/-- On an instance reached from a constructed one, a key is in the link exactly
when the property is set to a string that is not empty. -/
theorem reached_mem_linkKeys (upiId : JSValue) (s0 : PayMeQR) (ops : List Op)
    (h : PayMeQR.constructor upiId = .ok s0) (k : JSString) :
    k ∈ linkKeys (s0.run ops).getLink ↔
      ∃ v, (s0.run ops).params.get k = some v ∧ v ≠ [] := by
  obtain ⟨s, hv, hre, _⟩ := PayMeQR.constructor_eq_ok upiId s0 h
  have hr := (reached_constructor upiId s0 h).run ops
  rw [reached_linkKeys hr (by rw [hv]; exact (upiIdRegexTest_chars _ hre).1)]
  simp only [List.mem_filter, decide_eq_true_eq]
  constructor
  · rintro ⟨hk, hne⟩
    cases hg : (s0.run ops).params.get k with
    | none =>
      exfalso
      clear hne
      revert hg hk
      generalize (s0.run ops).params = p
      intro hk hg
      induction p with
      | nil => simp [Params.keys] at hk
      | cons kv p ih =>
        obtain ⟨k1, v1⟩ := kv
        by_cases e : k1 = k
        · simp [Params.get, e] at hg
        · simp only [Params.get, e, if_false] at hg
          simp only [Params.keys, List.map_cons, List.mem_cons] at hk
          rcases hk with hk | hk
          · exact e hk.symm
          · exact ih hk hg
    | some v =>
      refine ⟨v, rfl, ?_⟩
      intro e
      rw [hg, e] at hne
      exact hne rfl
  · rintro ⟨v, hg, hne⟩
    constructor
    · by_contra hk
      rw [Params.get_eq_none _ _ hk] at hg
      cases hg
    · rw [hg]
      intro e
      injection e with e
      exact hne e

/-- C7, as stated, fails: after `setPayeeName("Bob Smith")` on the instance built
from `ab@upi` the link is `upi://pay?pa=ab%40upi&cu=INR&pn=Bob+Smith`. The
space of the stored name is written `+`, not percent-encoded: percent-decoding
the value of the `pn` key gives `Bob+Smith`, which is not the stored name. -/
theorem setPayeeName_space_is_written_as_plus :
    (sampleStore.setPayeeName (.str (utf16 "Bob Smith"))).thrown = none ∧
    (sampleStore.setPayeeName (.str (utf16 "Bob Smith"))).self.params.get (utf16 "pn")
      = some (utf16 "Bob Smith") ∧
    (sampleStore.setPayeeName (.str (utf16 "Bob Smith"))).self.getLink
      = utf16 "upi://pay?pa=ab%40upi&cu=INR&pn=Bob+Smith" ∧
    (linkValue (sampleStore.setPayeeName (.str (utf16 "Bob Smith"))).self.getLink
        (utf16 "pn")).map percentDecode = some (utf16 "Bob+Smith") ∧
    (linkValue (sampleStore.setPayeeName (.str (utf16 "Bob Smith"))).self.getLink
        (utf16 "pn")).map percentDecode ≠ some (utf16 "Bob Smith") := by
  refine ⟨by decide, by decide, by decide, by decide, by decide⟩

/-- C7, amended: for every parameter object, the link is `upi://pay?` followed
by the `key=value` texts, joined by `&`, of exactly the properties whose value
is not the empty string, in property order, each key and value written in
`application/x-www-form-urlencoded` form. That form is fixed by what reads it
back: the text of a well-formed string is made of ASCII letters, digits and
`*`, `-`, `.`, `_`, `+`, `%` only, and turning every `+` into a space,
percent-decoding and reading the bytes as UTF-8 gives the string back; so the
decoded pairs of the link are the non-empty properties. `Bob Smith` is written
`Bob+Smith`, and the parameters `pa = x@upi`, `cu = INR` give exactly
`upi://pay?pa=x%40upi&cu=INR`. On an instance reached from a constructed one,
a key appears in the link exactly when the property is set to a non-empty
string, and after an accepted `setNote` whose note trims to the empty string
the link has no `tn` key. -/
theorem getLink_is_scheme_then_form_encoded_pairs :
    (∀ self : PayMeQR,
      self.getLink =
        utf16 "upi://pay?" ++
          [0x26].intercalate
            ((self.params.filter (fun kv => decide (kv.2 ≠ []))).map
              (fun kv => formUrlEncode kv.1 ++ [0x3D] ++ formUrlEncode kv.2))) ∧
    (∀ s : JSString, wellFormed s = true →
      decodeText (formUrlEncode s) = s ∧
      ∀ c ∈ formUrlEncode s,
        isAlpha c = true ∨ isDigit c = true ∨
          c = 0x2A ∨ c = 0x2D ∨ c = 0x2E ∨ c = 0x5F ∨ c = 0x2B ∨ c = 0x25) ∧
    (∀ self : PayMeQR,
      (∀ kv ∈ self.params, wellFormed kv.1 = true ∧ wellFormed kv.2 = true) →
      self.params.filter (fun kv => decide (kv.2 ≠ [])) ≠ [] →
      (linkPairs self.getLink).map (fun kv => (decodeText kv.1, decodeText kv.2))
        = self.params.filter (fun kv => decide (kv.2 ≠ []))) ∧
    (formUrlEncode (utf16 "Bob Smith") = utf16 "Bob+Smith" ∧
      formUrlEncode (utf16 "x@upi") = utf16 "x%40upi" ∧
      formUrlEncode (utf16 "é😀 &=+%~") = utf16 "%C3%A9%F0%9F%98%80+%26%3D%2B%25%7E" ∧
      PayMeQR.getLink { params := [(utf16 "pa", utf16 "x@upi"), (utf16 "cu", utf16 "INR")] }
        = utf16 "upi://pay?pa=x%40upi&cu=INR") ∧
    (∀ (upiId : JSValue) (s0 : PayMeQR) (ops : List Op), PayMeQR.constructor upiId = .ok s0 →
      ∀ k, k ∈ linkKeys (s0.run ops).getLink ↔
        ∃ v, (s0.run ops).params.get k = some v ∧ v ≠ []) ∧
    (∀ (upiId : JSValue) (s0 : PayMeQR) (ops : List Op) (note : JSString),
      PayMeQR.constructor upiId = .ok s0 → note.length ≤ 80 → trim note = [] →
      ((s0.run ops).setNote (.str note)).thrown = none ∧
      utf16 "tn" ∉ linkKeys ((s0.run ops).setNote (.str note)).self.getLink) := by
  refine ⟨fun self => getLink_eq self,
    fun s hs => ⟨decodeText_formUrlEncode s hs, formUrlEncode_chars s hs⟩,
    fun self hwf hne => decoded_linkPairs_getLink self hwf hne,
    ⟨by decide, by decide, by decide, by decide⟩,
    fun upiId s0 ops h k => reached_mem_linkKeys upiId s0 ops h k, ?_⟩
  intro upiId s0 ops note h hlen htrim
  have hcall : (s0.run ops).setNote (.str note) =
      { self := { params := (s0.run ops).params.set (utf16 "tn") (trim note) },
        thrown := none } := by
    have : ¬ 80 < note.length := by omega
    simp [PayMeQR.setNote, JSValue.isString, JSValue.asString, this]
  refine ⟨by rw [hcall], ?_⟩
  have hrun : ((s0.run ops).setNote (.str note)).self = s0.run (ops ++ [.setNote (.str note)]) := by
    rw [PayMeQR.run_append]
    rfl
  rw [hrun, reached_mem_linkKeys upiId s0 _ h]
  rintro ⟨v, hg, hne⟩
  rw [← hrun, hcall, htrim, Params.get_set_self] at hg
  injection hg with hg
  exact hne hg.symm

/-- Witness for C7 amended: the instance built from `ab@upi` after
`setPayeeName("José Smith")` and `setNote("thanks 😀")`. -/
theorem getLink_is_scheme_then_form_encoded_pairs_witness :
    (linkPairs (PayMeQR.run sampleStore
        [.setPayeeName (.str (utf16 "José Smith")),
          .setNote (.str (utf16 "thanks 😀"))]).getLink).map
        (fun kv => (decodeText kv.1, decodeText kv.2))
      = (PayMeQR.run sampleStore
          [.setPayeeName (.str (utf16 "José Smith")),
            .setNote (.str (utf16 "thanks 😀"))]).params.filter
          (fun kv => decide (kv.2 ≠ [])) :=
  getLink_is_scheme_then_form_encoded_pairs.2.2.1 _ (by decide) (by decide)

/-! ## Loading the encoder in a page (C8, C9) -/

theorem attachToFirstMatch_none (h : Handler) (l : List ScriptTag)
    (hl : ∀ t ∈ l, t.matchesSelector = false) : attachToFirstMatch h l = none := by
  induction l with
  | nil => rfl
  | cons t l ih =>
    have ht := hl t (List.mem_cons_self _ _)
    simp [attachToFirstMatch, ht, ih (fun x hx => hl x (List.mem_cons_of_mem _ hx))]

theorem attachToFirstMatch_append (h : Handler) (l : List ScriptTag) (t : ScriptTag)
    (hl : ∀ x ∈ l, x.matchesSelector = false) (ht : t.matchesSelector = true) :
    attachToFirstMatch h (l ++ [t]) = some (l ++ [{ t with handlers := t.handlers ++ [h] }]) := by
  induction l with
  | nil => simp [attachToFirstMatch, ht]
  | cons x l ih =>
    have hx := hl x (List.mem_cons_self _ _)
    simp [attachToFirstMatch, hx, ih (fun y hy => hl y (List.mem_cons_of_mem _ hy))]

/-- The element `#loadQrCodeLibrary` creates, with the given state and handlers. -/
theorem loaderTag_matches (st : TagState) (hs : List Handler) :
    ScriptTag.matchesSelector
      { src := some cdnUrl, crossOrigin := some (utf16 "anonymous"),
        state := st, handlers := hs } = true := by
  have h : containsSubstr (utf16 "qrcode.min.js") cdnUrl = true := by decide
  simp only [ScriptTag.matchesSelector, h]

theorem find_waiting_append (l : List (Nat × JSString)) (r : Nat) (link : JSString)
    (rest : List (Nat × JSString)) (hl : ∀ p ∈ l, p.1 ≠ r) :
    (l ++ (r, link) :: rest).find? (fun p => p.1 == r) = some (r, link) := by
  induction l with
  | nil => simp
  | cons p l ih =>
    have hp : (p.1 == r) = false := by simpa using hl p (List.mem_cons_self _ _)
    rw [List.cons_append, List.find?_cons, hp]
    exact ih (fun y hy => hl y (List.mem_cons_of_mem _ hy))

theorem filter_waiting_ne (l : List (Nat × JSString)) (r : Nat) (hl : ∀ p ∈ l, p.1 ≠ r) :
    l.filter (fun p => p.1 != r) = l := by
  rw [List.filter_eq_self]
  intro p hp
  simpa using hl p hp

/-- C8: in a page where no global encoder is defined and no script element
matches the selector, two image requests started one after the other, before
any load event, append one script element between them (one fetch): the second
request adds its listeners to the element of the first, and both stay
suspended. When the `load` event of that element fires, the script having set
the global encoder, both requests are resumed, each calls the encoder once, and
no further fetch has been started; both are fulfilled with an image when the
encoder succeeds on their links. -/
theorem two_requests_share_one_fetch (w : World) (self1 self2 : PayMeQR) (r1 r2 : Nat)
    (enc : Encoder)
    (hwin : w.hasWindow = true)
    (hq : w.QRCode = none)
    (hhead : ∀ t ∈ w.head, t.matchesSelector = false)
    (hbody : ∀ t ∈ w.body, t.matchesSelector = false)
    (hw : ∀ p ∈ w.waiting, p.1 ≠ r1 ∧ p.1 ≠ r2)
    (hne : r1 ≠ r2) :
    (self1.createQrCode w r1).fetches = w.fetches + 1 ∧
    (self2.createQrCode (self1.createQrCode w r1) r2).fetches = w.fetches + 1 ∧
    (self2.createQrCode (self1.createQrCode w r1) r2).head
      = w.head ++ [loaderTag .loading [.property r1, .listener r2]] ∧
    (self2.createQrCode (self1.createQrCode w r1) r2).body = w.body ∧
    (self2.createQrCode (self1.createQrCode w r1) r2).waiting
      = w.waiting ++ [(r1, self1.getLink), (r2, self2.getLink)] ∧
    (self2.createQrCode (self1.createQrCode w r1) r2).settled = w.settled ∧
    (fireLoad (self2.createQrCode (self1.createQrCode w r1) r2) w.head.length
        (some enc)).settled
      = w.settled ++
          [(r1, imageOrError (enc.toDataURL self1.getLink)),
           (r2, imageOrError (enc.toDataURL self2.getLink))] ∧
    (fireLoad (self2.createQrCode (self1.createQrCode w r1) r2) w.head.length
        (some enc)).waiting = w.waiting ∧
    (fireLoad (self2.createQrCode (self1.createQrCode w r1) r2) w.head.length
        (some enc)).fetches = w.fetches + 1 ∧
    (fireLoad (self2.createQrCode (self1.createQrCode w r1) r2) w.head.length
        (some enc)).encoderCalls = w.encoderCalls + 2 ∧
    (∀ d1 d2, enc.toDataURL self1.getLink = .ok d1 → enc.toDataURL self2.getLink = .ok d2 →
      (fireLoad (self2.createQrCode (self1.createQrCode w r1) r2) w.head.length
          (some enc)).settled
        = w.settled ++
            [(r1, .image { src := d1, alt := "UPI QR Code", loading := "lazy" }),
             (r2, .image { src := d2, alt := "UPI QR Code", loading := "lazy" })]) := by
  have e1 : self1.createQrCode w r1 =
      { w with
          head := w.head ++ [loaderTag .loading [.property r1]],
          fetches := w.fetches + 1,
          waiting := w.waiting ++ [(r1, self1.getLink)] } := by
    simp [PayMeQR.createQrCode, createBrowserQrCode, loadQrCodeLibrary, hwin, hq,
      attachToFirstMatch_none _ _ hhead, attachToFirstMatch_none _ _ hbody, loaderTag]
  have e2 : self2.createQrCode (self1.createQrCode w r1) r2 =
      { w with
          head := w.head ++ [loaderTag .loading [.property r1, .listener r2]],
          fetches := w.fetches + 1,
          waiting := w.waiting ++ [(r1, self1.getLink), (r2, self2.getLink)] } := by
    rw [e1]
    simp [PayMeQR.createQrCode, createBrowserQrCode, loadQrCodeLibrary, hwin, hq,
      attachToFirstMatch_append _ _ _ hhead (loaderTag_matches _ _), loaderTag]
  have f1 : (w.waiting ++ [(r1, self1.getLink), (r2, self2.getLink)]).find?
      (fun p => p.1 == r1) = some (r1, self1.getLink) :=
    find_waiting_append _ _ _ _ (fun p hp => (hw p hp).1)
  have g1 : (w.waiting ++ [(r1, self1.getLink), (r2, self2.getLink)]).filter
      (fun p => p.1 != r1) = w.waiting ++ [(r2, self2.getLink)] := by
    have hb : (r2 != r1) = true := by simpa using hne.symm
    rw [List.filter_append, filter_waiting_ne _ _ (fun p hp => (hw p hp).1)]
    simp [List.filter, hb]
  have f2 : (w.waiting ++ [(r2, self2.getLink)]).find?
      (fun p => p.1 == r2) = some (r2, self2.getLink) :=
    find_waiting_append _ _ _ _ (fun p hp => (hw p hp).2)
  have g2 : (w.waiting ++ [(r2, self2.getLink)]).filter
      (fun p => p.1 != r2) = w.waiting := by
    rw [List.filter_append, filter_waiting_ne _ _ (fun p hp => (hw p hp).2)]
    simp [List.filter]
  have e3 : fireLoad (self2.createQrCode (self1.createQrCode w r1) r2) w.head.length
      (some enc) =
      { w with
          QRCode := some enc,
          head := w.head ++ [loaderTag .loaded [.property r1, .listener r2]],
          fetches := w.fetches + 1,
          waiting := w.waiting,
          encoderCalls := w.encoderCalls + 1 + 1,
          settled := w.settled ++
            [(r1, imageOrError (enc.toDataURL self1.getLink)),
             (r2, imageOrError (enc.toDataURL self2.getLink))] } := by
    rw [e2]
    simp [fireLoad, loaderTag, resumeResolved, Handler.req, f1, g1, f2, g2, encodeInBrowser]
  rw [e3, e2, e1]
  refine ⟨rfl, rfl, rfl, rfl, rfl, rfl, rfl, rfl, rfl, rfl, ?_⟩
  intro d1 d2 h1 h2
  simp only [h1, h2, imageOrError]

/-- Witness for C8: requests 1 and 2 on an empty page. -/
theorem two_requests_share_one_fetch_witness :
    (sampleStore.createQrCode (sampleStore.createQrCode emptyPage 1) 2).fetches = 1 ∧
    (fireLoad (sampleStore.createQrCode (sampleStore.createQrCode emptyPage 1) 2) 0
        (some sampleEncoder)).settled
      = [(1, .image { src := utf16 "data:image/png;base64," ++ sampleStore.getLink,
                      alt := "UPI QR Code", loading := "lazy" }),
         (2, .image { src := utf16 "data:image/png;base64," ++ sampleStore.getLink,
                      alt := "UPI QR Code", loading := "lazy" })] :=
  have h := two_requests_share_one_fetch emptyPage sampleStore sampleStore 1 2 sampleEncoder
    rfl rfl (by simp [emptyPage]) (by simp [emptyPage]) (by simp [emptyPage]) (by decide)
  ⟨h.2.1, h.2.2.2.2.2.2.2.2.2.2 _ _ rfl rfl⟩

/-- After a failed load, on any page: a page with a `window`, no global
`QRCode` and no element matching the selector; request `r1` appends the loader
element, whose `error` event rejects it. A later request `r2` starts no fetch:
it adds its listeners to the failed element and is suspended, and neither a
`load` nor an `error` event on that element changes anything afterwards. -/
theorem request_after_failed_load_on_any_page (w : World) (self1 self2 : PayMeQR)
    (r1 r2 : Nat)
    (hwin : w.hasWindow = true)
    (hq : w.QRCode = none)
    (hhead : ∀ t ∈ w.head, t.matchesSelector = false)
    (hbody : ∀ t ∈ w.body, t.matchesSelector = false)
    (hw : ∀ p ∈ w.waiting, p.1 ≠ r1) :
    (fireError (self1.createQrCode w r1) w.head.length).settled
      = w.settled ++ [(r1, .rejected
          "Failed to load QRCode library from CDN. Please check your connection.")] ∧
    (self2.createQrCode (fireError (self1.createQrCode w r1) w.head.length) r2).fetches
      = w.fetches + 1 ∧
    (self2.createQrCode (fireError (self1.createQrCode w r1) w.head.length) r2).head
      = w.head ++ [loaderTag .failed [.property r1, .listener r2]] ∧
    (self2.createQrCode (fireError (self1.createQrCode w r1) w.head.length) r2).waiting
      = w.waiting ++ [(r2, self2.getLink)] ∧
    (self2.createQrCode (fireError (self1.createQrCode w r1) w.head.length) r2).settled
      = w.settled ++ [(r1, .rejected
          "Failed to load QRCode library from CDN. Please check your connection.")] ∧
    (∀ defines,
      fireLoad (self2.createQrCode (fireError (self1.createQrCode w r1) w.head.length) r2)
          w.head.length defines
        = self2.createQrCode (fireError (self1.createQrCode w r1) w.head.length) r2) ∧
    fireError (self2.createQrCode (fireError (self1.createQrCode w r1) w.head.length) r2)
        w.head.length
      = self2.createQrCode (fireError (self1.createQrCode w r1) w.head.length) r2 := by
  have e1 : self1.createQrCode w r1 =
      { w with
          head := w.head ++ [loaderTag .loading [.property r1]],
          fetches := w.fetches + 1,
          waiting := w.waiting ++ [(r1, self1.getLink)] } := by
    simp [PayMeQR.createQrCode, createBrowserQrCode, loadQrCodeLibrary, hwin, hq,
      attachToFirstMatch_none _ _ hhead, attachToFirstMatch_none _ _ hbody, loaderTag]
  have f1 : (w.waiting ++ [(r1, self1.getLink)]).find? (fun p => p.1 == r1)
      = some (r1, self1.getLink) := find_waiting_append _ _ _ _ hw
  have g1 : (w.waiting ++ [(r1, self1.getLink)]).filter (fun p => p.1 != r1) = w.waiting := by
    rw [List.filter_append, filter_waiting_ne _ _ hw]
    simp [List.filter]
  have e2 : fireError (self1.createQrCode w r1) w.head.length =
      { w with
          head := w.head ++ [loaderTag .failed [.property r1]],
          fetches := w.fetches + 1,
          settled := w.settled ++ [(r1, .rejected
            "Failed to load QRCode library from CDN. Please check your connection.")] } := by
    rw [e1]
    simp [fireError, loaderTag, resumeRejected, Handler.req, Handler.errorMessage, f1, g1]
  have e3 : self2.createQrCode (fireError (self1.createQrCode w r1) w.head.length) r2 =
      { w with
          head := w.head ++ [loaderTag .failed [.property r1, .listener r2]],
          fetches := w.fetches + 1,
          waiting := w.waiting ++ [(r2, self2.getLink)],
          settled := w.settled ++ [(r1, .rejected
            "Failed to load QRCode library from CDN. Please check your connection.")] } := by
    rw [e2]
    simp [PayMeQR.createQrCode, createBrowserQrCode, loadQrCodeLibrary, hwin, hq,
      attachToFirstMatch_append _ _ _ hhead (loaderTag_matches _ _), loaderTag]
  rw [e3, e2]
  refine ⟨rfl, rfl, rfl, rfl, rfl, ?_, ?_⟩
  · intro defines
    simp [fireLoad, loaderTag]
  · simp [fireError, loaderTag]

/-- C9, the behaviour of the code: on an empty page, request 1 appends the
loader element; its `error` event rejects request 1 with the message of the
failed load. Request 2, made afterwards, starts no fetch: it finds the failed
element, adds its listeners to it and stays suspended. No `load` or `error`
event fires on an element whose fetch has ended, so request 2 never settles. -/
theorem request_after_failed_load_starts_no_fetch :
    (fireError (sampleStore.createQrCode emptyPage 1) 0).settled
      = [(1, .rejected
            "Failed to load QRCode library from CDN. Please check your connection.")] ∧
    (fireError (sampleStore.createQrCode emptyPage 1) 0).fetches = 1 ∧
    (sampleStore.createQrCode (fireError (sampleStore.createQrCode emptyPage 1) 0) 2).fetches
      = 1 ∧
    (sampleStore.createQrCode (fireError (sampleStore.createQrCode emptyPage 1) 0) 2).head
      = [loaderTag .failed [.property 1, .listener 2]] ∧
    (sampleStore.createQrCode (fireError (sampleStore.createQrCode emptyPage 1) 0) 2).waiting
      = [(2, sampleStore.getLink)] ∧
    (sampleStore.createQrCode (fireError (sampleStore.createQrCode emptyPage 1) 0) 2).settled
      = [(1, .rejected
            "Failed to load QRCode library from CDN. Please check your connection.")] ∧
    (fireLoad
        (sampleStore.createQrCode (fireError (sampleStore.createQrCode emptyPage 1) 0) 2) 0
        (some sampleEncoder)).waiting = [(2, sampleStore.getLink)] ∧
    (fireError
        (sampleStore.createQrCode (fireError (sampleStore.createQrCode emptyPage 1) 0) 2)
        0).waiting = [(2, sampleStore.getLink)] := by
  refine ⟨by decide, by decide, by decide, by decide, by decide, by decide, by decide,
    by decide⟩

/-! ## The buffer operation (C10) -/

/-- C10, as stated, fails: with both a `window` and a `require`, `createQrCode`
takes the browser branch (the environment is detected as BROWSER), yet
`getQrCodeBuffer` does not throw the environment error: it calls
`require("qrcode")` and `toBuffer`, and is fulfilled with the bytes. -/
theorem getQrCodeBuffer_with_window_and_require_succeeds :
    detectEnvironment windowWithRequire = .BROWSER ∧
    (sampleStore.createQrCode windowWithRequire 1).head = [loaderTag .loading [.property 1]] ∧
    (sampleStore.getQrCodeBuffer windowWithRequire 1).settled
      = [(1, .buffer [0x89, 0x50, 0x4E, 0x47])] ∧
    (sampleStore.getQrCodeBuffer windowWithRequire 1).requires = 1 ∧
    (sampleStore.getQrCodeBuffer windowWithRequire 1).encoderCalls = 1 := by
  refine ⟨by decide, by decide, by decide, by decide, by decide⟩

theorem wrapped_buffer_error_ne (msg : String) :
    "Failed to generate QR code buffer: " ++ msg
      ≠ "getQrCodeBuffer() is only available in Node.js" := by
  intro h
  have h2 := congrArg String.data h
  rw [String.data_append] at h2
  have h3 := congrArg List.head? h2
  simp at h3

theorem getQrCodeBuffer_with_encoder (self : PayMeQR) (w : World) (req : Nat) (enc : Encoder)
    (hreq : w.hasRequire = true) (hm : w.nodeModule = .ok enc) :
    self.getQrCodeBuffer w req =
      { w with
          requires := w.requires + 1,
          encoderCalls := w.encoderCalls + 1,
          settled := w.settled ++
            [(req, match enc.toBuffer self.getLink with
                   | .ok bytes => .buffer bytes
                   | .error msg => .rejected ("Failed to generate QR code buffer: " ++ msg))] } := by
  unfold PayMeQR.getQrCodeBuffer
  simp only [hreq, Bool.not_true, Bool.false_eq_true, if_false, hm]
  cases hb : enc.toBuffer self.getLink <;> rfl

theorem getQrCodeBuffer_require_throws (self : PayMeQR) (w : World) (req : Nat) (msg : String)
    (hreq : w.hasRequire = true) (hm : w.nodeModule = .error msg) :
    self.getQrCodeBuffer w req =
      { w with
          requires := w.requires + 1,
          settled := w.settled ++
            [(req, .rejected ("Failed to generate QR code buffer: " ++ msg))] } := by
  unfold PayMeQR.getQrCodeBuffer
  simp only [hreq, Bool.not_true, Bool.false_eq_true, if_false, hm]

/-- C10, amended: in every environment without a `require` function, whether or
not a `window` is present (so in a BROWSER environment without `require` and in
every UNSUPPORTED one), `getQrCodeBuffer` is rejected with the environment
error, and neither `require` nor an encoder is called. In every environment it
leaves the document as it is and starts no fetch. With a `require` function,
whatever `window` is, it calls `require("qrcode")` once and, when that returns
the encoder, calls its `toBuffer` once on the link of the instance and settles
to what `toBuffer` settles to: the bytes, or its error wrapped; when `require`
throws, that error wrapped. So the environment error is the outcome exactly
when there is no `require` function. -/
theorem getQrCodeBuffer_decided_by_require (self : PayMeQR) (w : World) (req : Nat) :
    (w.hasRequire = false →
      (self.getQrCodeBuffer w req).settled
        = w.settled ++ [(req, .rejected "getQrCodeBuffer() is only available in Node.js")] ∧
      (self.getQrCodeBuffer w req).requires = w.requires ∧
      (self.getQrCodeBuffer w req).encoderCalls = w.encoderCalls) ∧
    ((self.getQrCodeBuffer w req).head = w.head ∧
      (self.getQrCodeBuffer w req).body = w.body ∧
      (self.getQrCodeBuffer w req).fetches = w.fetches ∧
      (self.getQrCodeBuffer w req).waiting = w.waiting) ∧
    (w.hasRequire = true → ∀ enc, w.nodeModule = .ok enc →
      (self.getQrCodeBuffer w req).requires = w.requires + 1 ∧
      (self.getQrCodeBuffer w req).encoderCalls = w.encoderCalls + 1 ∧
      (self.getQrCodeBuffer w req).settled
        = w.settled ++
            [(req, match enc.toBuffer self.getLink with
                   | .ok bytes => .buffer bytes
                   | .error msg =>
                       .rejected ("Failed to generate QR code buffer: " ++ msg))]) ∧
    (w.hasRequire = true → ∀ msg, w.nodeModule = .error msg →
      (self.getQrCodeBuffer w req).requires = w.requires + 1 ∧
      (self.getQrCodeBuffer w req).encoderCalls = w.encoderCalls ∧
      (self.getQrCodeBuffer w req).settled
        = w.settled ++ [(req, .rejected ("Failed to generate QR code buffer: " ++ msg))]) ∧
    ((self.getQrCodeBuffer w req).settled
        = w.settled ++ [(req, .rejected "getQrCodeBuffer() is only available in Node.js")]
      ↔ w.hasRequire = false) ∧
    (detectEnvironment w ≠ .SERVER → w.hasWindow = false →
      (self.getQrCodeBuffer w req).settled
        = w.settled ++ [(req, .rejected "getQrCodeBuffer() is only available in Node.js")]) := by
  have hno : w.hasRequire = false →
      (self.getQrCodeBuffer w req).settled
        = w.settled ++ [(req, .rejected "getQrCodeBuffer() is only available in Node.js")] ∧
      (self.getQrCodeBuffer w req).requires = w.requires ∧
      (self.getQrCodeBuffer w req).encoderCalls = w.encoderCalls := by
    intro h
    simp [PayMeQR.getQrCodeBuffer, h]
  refine ⟨hno, ?_, ?_, ?_, ⟨?_, fun h => (hno h).1⟩, ?_⟩
  · cases hreq : w.hasRequire with
    | false => simp [PayMeQR.getQrCodeBuffer, hreq]
    | true =>
      cases hm : w.nodeModule with
      | error msg => rw [getQrCodeBuffer_require_throws self w req msg hreq hm]; simp
      | ok enc => rw [getQrCodeBuffer_with_encoder self w req enc hreq hm]; simp
  · intro hreq enc hm
    rw [getQrCodeBuffer_with_encoder self w req enc hreq hm]
    exact ⟨rfl, rfl, rfl⟩
  · intro hreq msg hm
    rw [getQrCodeBuffer_require_throws self w req msg hreq hm]
    exact ⟨rfl, rfl, rfl⟩
  · intro hs
    cases hreq : w.hasRequire with
    | false => rfl
    | true =>
      exfalso
      cases hm : w.nodeModule with
      | error msg =>
        rw [getQrCodeBuffer_require_throws self w req msg hreq hm] at hs
        have h1 := List.append_cancel_left hs
        simp only [List.cons.injEq, Prod.mk.injEq, true_and, and_true, Settled.rejected.injEq]
          at h1
        exact wrapped_buffer_error_ne msg h1
      | ok enc =>
        rw [getQrCodeBuffer_with_encoder self w req enc hreq hm] at hs
        have h1 := List.append_cancel_left hs
        simp only [List.cons.injEq, Prod.mk.injEq, true_and, and_true] at h1
        cases hb : enc.toBuffer self.getLink with
        | ok bytes => rw [hb] at h1; cases h1
        | error msg =>
          rw [hb] at h1
          simp only [Settled.rejected.injEq] at h1
          exact wrapped_buffer_error_ne msg h1
  · intro hd hwin
    have h : w.hasRequire = false := by
      cases hr : w.hasRequire with
      | false => rfl
      | true => simp [detectEnvironment, hwin, hr] at hd
    exact (hno h).1

/-- Witness for C10 amended: a page with a `window` and no `require`, and a
runtime with a `window` and a `require` that returns the encoder. -/
theorem getQrCodeBuffer_decided_by_require_witness :
    ((sampleStore.getQrCodeBuffer emptyPage 1).settled
        = emptyPage.settled ++
            [(1, .rejected "getQrCodeBuffer() is only available in Node.js")] ∧
      (sampleStore.getQrCodeBuffer emptyPage 1).requires = emptyPage.requires ∧
      (sampleStore.getQrCodeBuffer emptyPage 1).encoderCalls = emptyPage.encoderCalls) ∧
    ((sampleStore.getQrCodeBuffer windowWithRequire 1).requires
        = windowWithRequire.requires + 1 ∧
      (sampleStore.getQrCodeBuffer windowWithRequire 1).encoderCalls
        = windowWithRequire.encoderCalls + 1 ∧
      (sampleStore.getQrCodeBuffer windowWithRequire 1).settled
        = windowWithRequire.settled ++
            [(1, match sampleEncoder.toBuffer sampleStore.getLink with
                 | .ok bytes => .buffer bytes
                 | .error msg =>
                     .rejected ("Failed to generate QR code buffer: " ++ msg))]) :=
  ⟨(getQrCodeBuffer_decided_by_require sampleStore emptyPage 1).1 rfl,
   (getQrCodeBuffer_decided_by_require sampleStore windowWithRequire 1).2.2.1 rfl
     sampleEncoder rfl⟩

/-! ## The amount (C4) -/

/-- C4, the behaviour of the code on values that `toFixed(2)` does not write
with two decimals: `setAmount(Infinity)` and `setAmount("Infinity")` return and
store `Infinity`; `setAmount(1e21)` and `setAmount("1e21")` return and store
`1e+21`. -/
theorem setAmount_stores_Infinity_and_exponent_form (self : PayMeQR) :
    self.setAmount (.num (.inf false))
      = { self := { params := self.params.set (utf16 "am") (utf16 "Infinity") },
          thrown := none } ∧
    self.setAmount (.str (utf16 "Infinity"))
      = { self := { params := self.params.set (utf16 "am") (utf16 "Infinity") },
          thrown := none } ∧
    self.setAmount (.num (.fin false 7629394531250000 17))
      = { self := { params := self.params.set (utf16 "am") (utf16 "1e+21") },
          thrown := none } ∧
    self.setAmount (.str (utf16 "1e21"))
      = { self := { params := self.params.set (utf16 "am") (utf16 "1e+21") },
          thrown := none } := by
  have p1 : parseFloatStr (utf16 "Infinity") = .inf false := by decide
  have p2 : parseFloatStr (utf16 "1e21") = .fin false 7629394531250000 17 := by decide
  have t1 : toFixed2 (.inf false) = utf16 "Infinity" := by decide
  have t2 : toFixed2 (.fin false 7629394531250000 17) = utf16 "1e+21" := by
    set_option maxRecDepth 100000 in decide
  refine ⟨?_, ?_, ?_, ?_⟩
  · simp [PayMeQR.setAmount, parseFloat, JSNum.isNaN, JSNum.leZero, t1]
  · simp [PayMeQR.setAmount, parseFloat, JSNum.isNaN, JSNum.leZero, p1, t1]
  · simp [PayMeQR.setAmount, parseFloat, JSNum.isNaN, JSNum.leZero, t2]
  · simp [PayMeQR.setAmount, parseFloat, JSNum.isNaN, JSNum.leZero, p2, t2]

/-- The examples of C4 on which the code does what is claimed: `setAmount(0)`
and `setAmount(-1)` throw; `setAmount(10)` followed by `setAmount(10.5)` leaves
one `am` property, `10.50`. -/
theorem setAmount_examples :
    (sampleStore.setAmount (.num (.fin false 0 0))).thrown = some "Invalid amount" ∧
    (sampleStore.setAmount (.num (.fin true 1 0))).thrown = some "Invalid amount" ∧
    (sampleStore.setAmount (.str (utf16 "abc"))).thrown = some "Invalid amount" ∧
    (sampleStore.setAmount (.num (.fin false 10 0))).self.params
      = [(utf16 "pa", utf16 "ab@upi"), (utf16 "cu", utf16 "INR"), (utf16 "am", utf16 "10.00")] ∧
    ((sampleStore.setAmount (.num (.fin false 10 0))).self.setAmount
        (.num (.fin false 21 (-1)))).self.params
      = [(utf16 "pa", utf16 "ab@upi"), (utf16 "cu", utf16 "INR"), (utf16 "am", utf16 "10.50")] := by
  refine ⟨by decide, by decide, by decide, by decide, by decide⟩

theorem decimalDigitsAux_digits (fuel n : Nat) (acc : List Nat)
    (hacc : ∀ c ∈ acc, isDigit c = true) :
    ∀ c ∈ decimalDigitsAux fuel n acc, isDigit c = true := by
  induction fuel generalizing n acc with
  | zero => simpa [decimalDigitsAux] using hacc
  | succ fuel ih =>
    unfold decimalDigitsAux
    split
    · intro c hc
      rcases List.mem_cons.1 hc with hc | hc
      · subst hc
        simp only [isDigit, Bool.and_eq_true, decide_eq_true_eq]
        omega
      · exact hacc c hc
    · apply ih
      intro c hc
      rcases List.mem_cons.1 hc with hc | hc
      · subst hc
        simp only [isDigit, Bool.and_eq_true, decide_eq_true_eq]
        omega
      · exact hacc c hc

theorem decimalDigits_digits (n : Nat) : ∀ c ∈ decimalDigits n, isDigit c = true :=
  decimalDigitsAux_digits _ _ [] (by simp)

/-- Below `10 ^ 21`, `toFixed(2)` writes a finite Number as an optional sign, at
least one digit, a decimal point and exactly two digits. -/
theorem toFixed2_two_decimals (neg : Bool) (m : Nat) (e : Int)
    (h : ¬ 10 ^ 21 * (dyadicFrac m e).2 ≤ (dyadicFrac m e).1) :
    ∃ ip fp : JSString,
      toFixed2 (.fin neg m e)
        = (if neg && decide (m ≠ 0) then utf16 "-" else []) ++ ip ++ 0x2E :: fp ∧
      ip ≠ [] ∧ (∀ c ∈ ip, isDigit c = true) ∧
      fp.length = 2 ∧ (∀ c ∈ fp, isDigit c = true) := by
  have hpad : ∀ ds : List Nat, (∀ c ∈ ds, isDigit c = true) →
      (∀ c ∈ List.replicate (3 - ds.length) 0x30 ++ ds, isDigit c = true) ∧
      3 ≤ (List.replicate (3 - ds.length) 0x30 ++ ds).length := by
    intro ds hds
    constructor
    · intro c hc
      rcases List.mem_append.1 hc with hc | hc
      · rw [(List.mem_replicate.1 hc).2]
        decide
      · exact hds c hc
    · simp only [List.length_append, List.length_replicate]
      omega
  obtain ⟨pad, hpadeq⟩ : ∃ pad, pad =
      List.replicate (3 - (decimalDigits ((200 * (dyadicFrac m e).1 + (dyadicFrac m e).2) /
        (2 * (dyadicFrac m e).2))).length) 0x30 ++
      decimalDigits ((200 * (dyadicFrac m e).1 + (dyadicFrac m e).2) /
        (2 * (dyadicFrac m e).2)) := ⟨_, rfl⟩
  obtain ⟨hd, hlen⟩ := hpad (decimalDigits ((200 * (dyadicFrac m e).1 + (dyadicFrac m e).2) /
    (2 * (dyadicFrac m e).2))) (decimalDigits_digits _)
  rw [← hpadeq] at hd hlen
  refine ⟨pad.take (pad.length - 2), pad.drop (pad.length - 2), ?_, ?_, ?_, ?_, ?_⟩
  · simp only [toFixed2, h, if_false]
    rw [← hpadeq]
  · intro hnil
    have := congrArg List.length hnil
    simp only [List.length_take, List.length_nil] at this
    omega
  · intro c hc
    exact hd c (List.mem_of_mem_take hc)
  · simp only [List.length_drop]
    omega
  · intro c hc
    exact hd c (List.mem_of_mem_drop hc)

/-- Witness: `10.5 = 21 * 2 ^ (-1)` is below `10 ^ 21`. -/
theorem toFixed2_two_decimals_witness :
    ∃ ip fp : JSString,
      toFixed2 (.fin false 21 (-1))
        = (if false && decide (21 ≠ 0) then utf16 "-" else []) ++ ip ++ 0x2E :: fp ∧
      ip ≠ [] ∧ (∀ c ∈ ip, isDigit c = true) ∧
      fp.length = 2 ∧ (∀ c ∈ fp, isDigit c = true) :=
  toFixed2_two_decimals false 21 (-1) (by decide)

/-- On a positive finite Number below `10 ^ 21`, `setAmount` returns and stores
a text made of at least one digit, a decimal point and exactly two digits. -/
theorem setAmount_two_decimals_below_1e21 (self : PayMeQR) (m : Nat) (e : Int)
    (hm : m ≠ 0) (h : ¬ 10 ^ 21 * (dyadicFrac m e).2 ≤ (dyadicFrac m e).1) :
    ∃ ip fp : JSString,
      self.setAmount (.num (.fin false m e))
        = { self := { params := self.params.set (utf16 "am") (ip ++ 0x2E :: fp) },
            thrown := none } ∧
      ip ≠ [] ∧ (∀ c ∈ ip, isDigit c = true) ∧
      fp.length = 2 ∧ (∀ c ∈ fp, isDigit c = true) := by
  obtain ⟨ip, fp, heq, h1, h2, h3, h4⟩ := toFixed2_two_decimals false m e h
  refine ⟨ip, fp, ?_, h1, h2, h3, h4⟩
  simp only [Bool.false_and, Bool.false_eq_true, if_false, List.nil_append] at heq
  simp [PayMeQR.setAmount, parseFloat, JSNum.isNaN, JSNum.leZero, hm, heq]

/-- Witness: `setAmount(10.5)` on the instance built from `ab@upi`. -/
theorem setAmount_two_decimals_below_1e21_witness :
    ∃ ip fp : JSString,
      sampleStore.setAmount (.num (.fin false 21 (-1)))
        = { self := { params := sampleStore.params.set (utf16 "am") (ip ++ 0x2E :: fp) },
            thrown := none } ∧
      ip ≠ [] ∧ (∀ c ∈ ip, isDigit c = true) ∧
      fp.length = 2 ∧ (∀ c ∈ fp, isDigit c = true) :=
  setAmount_two_decimals_below_1e21 sampleStore 21 (-1) (by decide) (by decide)

end Paymeqr
